import Mathlib

/-!
Shallow embedding of `src/src/data/Segment_Slicer.py` (class `SegmentSlicer`).

Modelling conventions:
* Python floats are modelled as `ℚ`.  The only place a float NaN is ever
  produced and observed in the translated code is the first entry of a
  `pandas` `diff()` column; there NaN is modelled explicitly as `none` in
  `Option ℚ` (`series_diff`, `calculate_grades`).  `np.where(cond, a, b)`
  evaluates `cond` on NaN as `False`, so the produced grade column itself
  contains no NaN; downstream code therefore works with plain `ℚ`.
* Coordinates may be malformed (the source wraps their conversion in
  `try/except`), so a coordinate element is either a numeric `(lat, lon)`
  pair or `bad` — a value for which both `float(c[0])` and the vector
  arithmetic of `_calculate_angle` raise.
* Python exceptions are modelled with `Except Unit`; a raised exception
  propagating out of `cut_segment` is `.error ()`.
* `pandas` rolling mean with `center=True, min_periods=1` and an odd
  window `w` computes, at position `i`, the mean of the entries with
  indices in `[i-w/2, i+w/2] ∩ [0, n)`.
* Python's `list.sort(key=...)` is a stable sort; any stable sort by the
  same key is extensionally identical, so it is modelled by insertion
  sort (`List.insertionSort`) on the `start_distance` key.
-/

namespace SegmentSlicer

/-- A row of the working DataFrame built in `cut_segment`:
columns `ele`, `distance`, `lat`, `lon`, `grade`, `plot_grade`. -/
structure Row where
  ele : ℚ
  distance : ℚ
  lat : ℚ
  lon : ℚ
  grade : ℚ
  plot_grade : ℚ
deriving DecidableEq, Repr

instance : Inhabited Row := ⟨⟨0, 0, 0, 0, 0, 0⟩⟩

/-- An output segment record (the Python dict).  `sharp_turns` is `Option`
because only the records built by `_validate_and_append_descent` carry the
`sharp_turns` key; climb records and filler records do not have the key at
all, which is modelled as `none`.  Likewise `grade_variance` is `Option ℚ`
because the pandas sample variance of fewer than two values is NaN. -/
structure Segment where
  type : String
  category : String
  start_distance : ℚ
  end_distance : ℚ
  distance : ℚ
  start_altitude : ℚ
  end_altitude : ℚ
  elevation_gain : ℚ
  elevation_loss : ℚ
  elevation_change : ℚ
  grade : ℚ
  max_grade : ℚ
  min_grade : ℚ
  grade_variance : Option ℚ
  sharp_turns : Option ℕ
  start_idx : ℕ
  end_idx : ℕ
deriving DecidableEq, Repr

instance : Inhabited Segment :=
  ⟨⟨"", "", 0, 0, 0, 0, 0, 0, 0, 0, 0, 0, 0, none, none, 0, 0⟩⟩

/-! ### Small pandas-style helpers -/

/-- Mean of a list of rationals; the empty mean (pandas NaN) is collapsed
to 0, which agrees with every comparison the source performs on it
(`NaN > 1`, `NaN < -1`, `NaN >= threshold` are all false, as are the same
comparisons against 0 in the contexts where the source uses the mean of a
possibly-empty slice). -/
def qmean (xs : List ℚ) : ℚ :=
  if xs.isEmpty then 0 else xs.sum / xs.length

/-- Maximum of a list (`Series.max()`), 0 for the empty list (the source
only applies it to nonempty slices). -/
def qmax : List ℚ → ℚ
  | [] => 0
  | x :: xs => xs.foldl max x

/-- Minimum of a list (`Series.min()`), 0 for the empty list. -/
def qmin : List ℚ → ℚ
  | [] => 0
  | x :: xs => xs.foldl min x

/-- Sample variance with `ddof=1` (`Series.var()`); NaN (fewer than two
values) is `none`. -/
def qvar (xs : List ℚ) : Option ℚ :=
  if xs.length < 2 then none
  else
    let m := qmean xs
    some ((xs.map (fun x => (x - m) ^ 2)).sum / (xs.length - 1 : ℚ))

/-- The `Series.diff()` of a column: NaN (`none`) at index 0, and
`x[i] - x[i-1]` afterwards; the diff of an empty series is empty. -/
def series_diff (xs : List ℚ) : List (Option ℚ) :=
  match xs with
  | [] => []
  | _ => none :: List.zipWith (fun a b => some (a - b)) xs.tail xs

/-- The subsequence of column entries whose incoming `diff()` is positive:
the rows selected by `segment_df[segment_df['ele'].diff() > 0]`. -/
def rising_points (xs : List ℚ) : List ℚ :=
  (List.zipWith (fun prev cur => (prev, cur)) xs xs.tail).filterMap
    (fun pc => if 0 < pc.2 - pc.1 then some pc.2 else none)

/-- The subsequence of column entries whose incoming `diff()` is negative. -/
def falling_points (xs : List ℚ) : List ℚ :=
  (List.zipWith (fun prev cur => (prev, cur)) xs xs.tail).filterMap
    (fun pc => if pc.2 - pc.1 < 0 then some pc.2 else none)

/-- Sum of the `diff()` of a series (first NaN skipped by `sum()`), as in
`segment_df[...]['ele'].diff().sum()`.  Note this diffs the *filtered*
subsequence, so it telescopes to last-minus-first of that subsequence. -/
def diff_sum (xs : List ℚ) : ℚ :=
  (List.zipWith (fun a b => a - b) xs.tail xs).sum

/-- Elevation gain as computed by `_validate_and_append_climb`:
`segment_df[segment_df['ele'].diff() > 0]['ele'].diff().sum()`. -/
def climb_gain (eles : List ℚ) : ℚ :=
  diff_sum (rising_points eles)

/-- Elevation loss as computed by `_validate_and_append_descent`:
`abs(segment_df[segment_df['ele'].diff() < 0]['ele'].diff().sum())`. -/
def descent_loss (eles : List ℚ) : ℚ :=
  |diff_sum (falling_points eles)|

/-! ### Grade Calculator (`_calculate_grades`) -/

/-- The `grade` column produced by `_calculate_grades`:
`np.where(dist_diff > 0, (elev_diff / dist_diff) * 100, 0)`.  The
condition `NaN > 0` at index 0 is false, so index 0 gets the value 0 (a
real number, not NaN).  The output type keeps `Option ℚ` so that NaN-ness
of entries is expressible; an entry is `none` only if the `np.where`
branch would produce NaN, which in fact never happens. -/
def calculate_grades (ele dist : List ℚ) : List (Option ℚ) :=
  List.zipWith
    (fun dd ed =>
      match dd with
      | none => some 0
      | some dv =>
          if 0 < dv then
            match ed with
            | some ev => some (ev / dv * 100)
            | none => none
          else some 0)
    (series_diff dist) (series_diff ele)

/-- The grade column as plain rationals (every entry of
`calculate_grades` is in fact `some`; see `calculate_grades_eq_map_some`). -/
def grades_q (ele dist : List ℚ) : List ℚ :=
  (calculate_grades ele dist).map (fun g => g.getD 0)

/-! ### Grade Smoother (`_apply_smoothing`) -/

/-- The effective rolling window used by `_apply_smoothing`:
`window_size = min(window, len(df))`, then incremented if even. -/
def effective_window (window n : ℕ) : ℕ :=
  let ws := min window n
  if ws % 2 = 0 then ws + 1 else ws

/-- Centered rolling mean with `min_periods=1` over the effective window:
the `plot_grade` column. -/
def apply_smoothing (grades : List ℚ) (window : ℕ) : List ℚ :=
  let n := grades.length
  let ws := effective_window window n
  let h := ws / 2
  (List.range n).map (fun i =>
    qmean ((grades.drop (i - h)).take (min n (i + h + 1) - (i - h))))

/-! ### Segment Classifier -/

/-- Strava-style climb classification (`_classify_climb_strava`). -/
def classify_climb_strava (length_m avg_slope : ℚ) : String :=
  if avg_slope < 3 then "Uncategorized"
  else
    let score := length_m * avg_slope
    if 80000 ≤ score then "HC"
    else if 64000 ≤ score then "Cat 1"
    else if 32000 ≤ score then "Cat 2"
    else if 16000 ≤ score then "Cat 3"
    else if 8000 ≤ score then "Cat 4"
    else "Uncategorized"

/-- Descent classification (`_classify_descent`). -/
def classify_descent (length_m avg_slope : ℚ) : String :=
  if avg_slope < 3 then "Uncategorized"
  else
    let score := length_m * avg_slope
    if 64000 ≤ score then "Major Descent"
    else if 32000 ≤ score then "Significant Descent"
    else if 16000 ≤ score then "Moderate Descent"
    else if 8000 ≤ score then "Minor Descent"
    else "Uncategorized"

/-! ### Candidate validation -/

/-- Length of a candidate, `distance.iloc[-1] - distance.iloc[0]`. -/
def seg_length (seg : List Row) : ℚ :=
  ((seg.getLast?).map Row.distance).getD 0 - ((seg.head?).map Row.distance).getD 0

/-- Elevation gain of a candidate as the source computes it. -/
def seg_gain (seg : List Row) : ℚ :=
  climb_gain (seg.map Row.ele)

/-- Elevation loss of a candidate as the source computes it. -/
def seg_loss (seg : List Row) : ℚ :=
  descent_loss (seg.map Row.ele)

/-- The record built and appended by `_validate_and_append_climb`, or
`none` when the candidate is rejected. -/
def validate_climb (seg : List Row) (start_idx : ℕ) (min_length_m min_gain_m : ℚ) :
    Option Segment :=
  if seg.length < 2 then none
  else
    let length := seg_length seg
    let gain := seg_gain seg
    if length < min_length_m ∨ gain < min_gain_m then none
    else
      let avg_slope := if 0 < length then gain / length * 100 else 0
      let pg := seg.map Row.plot_grade
      let category := classify_climb_strava length avg_slope
      let segment_type := if category ≠ "Uncategorized" then "climb" else "uphill"
      some
        { type := segment_type
          category := category
          start_distance := ((seg.head?).map Row.distance).getD 0
          end_distance := ((seg.getLast?).map Row.distance).getD 0
          distance := length
          start_altitude := ((seg.head?).map Row.ele).getD 0
          end_altitude := ((seg.getLast?).map Row.ele).getD 0
          elevation_gain := gain
          elevation_loss := 0
          elevation_change := gain
          grade := avg_slope
          max_grade := qmax pg
          min_grade := qmin pg
          grade_variance := qvar pg
          sharp_turns := none
          start_idx := start_idx
          end_idx := start_idx + seg.length - 1 }

/-- The `_validate_and_append_climb` method: returns the updated climbs
list. -/
def validate_and_append_climb (climbs : List Segment) (seg : List Row)
    (start_idx : ℕ) (min_length_m min_gain_m : ℚ) : List Segment :=
  match validate_climb seg start_idx min_length_m min_gain_m with
  | some r => climbs ++ [r]
  | none => climbs

/-! ### Climb detector (`_detect_climbs`) -/

/-- The loop state of `_detect_climbs`: the Python local variables.
`pause_start_idx`, `pause_length`, `pause_descent` are 0 before their
first assignment. -/
structure ClimbScan where
  state : String
  start_idx : ℕ
  segment_points : List Row
  pause_start_idx : ℕ
  pause_length : ℚ
  pause_descent : ℚ
  climbs : List Segment
deriving Repr

/-- Initial state of the climb scan. -/
def climbInit : ClimbScan :=
  { state := "SEARCHING", start_idx := 0, segment_points := []
    pause_start_idx := 0, pause_length := 0, pause_descent := 0, climbs := [] }

/-- One iteration of the `_detect_climbs` loop at index `i`, where
`prev = df.iloc[i-1]` and `cur = df.iloc[i]`.  The pause-failure branch
trims `segment_points[:-(i - pause_start_idx)]`, i.e. keeps the first
`len - (i - pause_start_idx)` collected points. -/
def climb_step (start_threshold end_threshold max_pause_length_m max_pause_descent_m
    min_length_m min_gain_m : ℚ) (i : ℕ) (prev cur : Row) (s : ClimbScan) : ClimbScan :=
  let slope := cur.plot_grade
  let elev_diff := cur.ele - prev.ele
  let dist_diff := cur.distance - prev.distance
  if s.state = "SEARCHING" then
    if start_threshold ≤ slope then
      { s with state := "IN_CLIMB", start_idx := i - 1, segment_points := [prev, cur] }
    else s
  else if s.state = "IN_CLIMB" then
    if end_threshold ≤ slope then
      { s with segment_points := s.segment_points ++ [cur] }
    else
      { s with state := "EVALUATING_PAUSE", pause_start_idx := i - 1
               pause_length := 0, pause_descent := 0
               segment_points := s.segment_points ++ [cur] }
  else if s.state = "EVALUATING_PAUSE" then
    let sp := s.segment_points ++ [cur]
    let pl := s.pause_length + dist_diff
    let pd := if elev_diff < 0 then s.pause_descent + |elev_diff| else s.pause_descent
    if end_threshold ≤ slope then
      { s with state := "IN_CLIMB", segment_points := sp
               pause_length := pl, pause_descent := pd }
    else if max_pause_length_m < pl ∨ max_pause_descent_m < pd then
      { s with state := "SEARCHING", segment_points := []
               pause_length := pl, pause_descent := pd
               climbs := validate_and_append_climb s.climbs
                 (sp.take (sp.length - (i - s.pause_start_idx)))
                 s.start_idx min_length_m min_gain_m }
    else
      { s with segment_points := sp, pause_length := pl, pause_descent := pd }
  else s

/-- The `_detect_climbs` loop, iterating `i` over `[1, len(df))`. -/
def detect_climbs_aux (st et mpl mpd minL minG : ℚ) :
    ℕ → Row → List Row → ClimbScan → ClimbScan
  | _, _, [], s => s
  | i, prev, cur :: rest, s =>
      detect_climbs_aux st et mpl mpd minL minG (i + 1) cur rest
        (climb_step st et mpl mpd minL minG i prev cur s)

/-- End-of-loop flush of `_detect_climbs`. -/
def climb_finalize (minL minG : ℚ) (s : ClimbScan) : List Segment :=
  if (s.state = "IN_CLIMB" ∨ s.state = "EVALUATING_PAUSE") ∧ s.segment_points ≠ [] then
    validate_and_append_climb s.climbs s.segment_points s.start_idx minL minG
  else s.climbs

/-- `_detect_climbs` with its default parameters. -/
def detect_climbs (df : List Row) (start_threshold : ℚ := 3)
    (end_threshold : ℚ := 1.5) (max_pause_length_m : ℚ := 200)
    (max_pause_descent_m : ℚ := 15) (min_length_m : ℚ := 300)
    (min_gain_m : ℚ := 20) : List Segment :=
  match df with
  | [] => []
  | r0 :: rest =>
      climb_finalize min_length_m min_gain_m
        (detect_climbs_aux start_threshold end_threshold max_pause_length_m
          max_pause_descent_m min_length_m min_gain_m 1 r0 rest climbInit)

/-- Variant of `climb_step` that follows the spec's words for the
pause-failure branch: the candidate is exactly the points collected
before the pause began, i.e. the rows with indices
`start_idx .. pause_start_idx`, kept as
`take (pause_start_idx + 1 - start_idx)`.  Used to state claim C2 as a
refinement of `climb_step`. -/
def climb_step_stable (start_threshold end_threshold max_pause_length_m
    max_pause_descent_m min_length_m min_gain_m : ℚ) (i : ℕ) (prev cur : Row)
    (s : ClimbScan) : ClimbScan :=
  let slope := cur.plot_grade
  let elev_diff := cur.ele - prev.ele
  let dist_diff := cur.distance - prev.distance
  if s.state = "SEARCHING" then
    if start_threshold ≤ slope then
      { s with state := "IN_CLIMB", start_idx := i - 1, segment_points := [prev, cur] }
    else s
  else if s.state = "IN_CLIMB" then
    if end_threshold ≤ slope then
      { s with segment_points := s.segment_points ++ [cur] }
    else
      { s with state := "EVALUATING_PAUSE", pause_start_idx := i - 1
               pause_length := 0, pause_descent := 0
               segment_points := s.segment_points ++ [cur] }
  else if s.state = "EVALUATING_PAUSE" then
    let sp := s.segment_points ++ [cur]
    let pl := s.pause_length + dist_diff
    let pd := if elev_diff < 0 then s.pause_descent + |elev_diff| else s.pause_descent
    if end_threshold ≤ slope then
      { s with state := "IN_CLIMB", segment_points := sp
               pause_length := pl, pause_descent := pd }
    else if max_pause_length_m < pl ∨ max_pause_descent_m < pd then
      { s with state := "SEARCHING", segment_points := []
               pause_length := pl, pause_descent := pd
               climbs := validate_and_append_climb s.climbs
                 (sp.take (s.pause_start_idx + 1 - s.start_idx))
                 s.start_idx min_length_m min_gain_m }
    else
      { s with segment_points := sp, pause_length := pl, pause_descent := pd }
  else s

/-- The climb-detector loop built on `climb_step_stable`. -/
def detect_climbs_aux_stable (st et mpl mpd minL minG : ℚ) :
    ℕ → Row → List Row → ClimbScan → ClimbScan
  | _, _, [], s => s
  | i, prev, cur :: rest, s =>
      detect_climbs_aux_stable st et mpl mpd minL minG (i + 1) cur rest
        (climb_step_stable st et mpl mpd minL minG i prev cur s)

/-- The climb detector built on `climb_step_stable`. -/
def detect_climbs_stable (df : List Row) (start_threshold : ℚ := 3)
    (end_threshold : ℚ := 1.5) (max_pause_length_m : ℚ := 200)
    (max_pause_descent_m : ℚ := 15) (min_length_m : ℚ := 300)
    (min_gain_m : ℚ := 20) : List Segment :=
  match df with
  | [] => []
  | r0 :: rest =>
      climb_finalize min_length_m min_gain_m
        (detect_climbs_aux_stable start_threshold end_threshold max_pause_length_m
          max_pause_descent_m min_length_m min_gain_m 1 r0 rest climbInit)

/-! ### Coordinates and sharp-turn counting -/

/-- A raw coordinate element handed to `cut_segment`.  `pair` is a
well-formed numeric `(lat, lon)`; `bad` is a malformed element for which
both `float(c[0])` (in the extraction `try`) and `p[0] - q[0]` (in
`_calculate_angle`) raise. -/
inductive PyCoord where
  | pair (lat lon : ℚ)
  | bad
deriving DecidableEq, Repr

/-- Python truthiness of the `coordinates` argument (`None` and the empty
list are falsy). -/
def pyTruthy : Option (List PyCoord) → Bool
  | some (_ :: _) => true
  | _ => false

/-- The extraction `try` block of `cut_segment`: `none` models the raised
exception caught by the bare `except`. -/
def extract_lat_lon (cl : List PyCoord) : Option (List ℚ × List ℚ) :=
  if cl.all (fun c => match c with | .pair _ _ => true | .bad => false) then
    some (cl.map (fun c => match c with | .pair la _ => la | .bad => 0),
          cl.map (fun c => match c with | .pair _ lo => lo | .bad => 0))
  else none

/-- Whether the angle computed by `_calculate_angle` at `p2` from the
chord vectors to `p1` and `p3` exceeds 60 degrees.  The source computes
`degrees(arccos(clip(dot/(|v1||v2|), -1, 1)))` and compares `> 60`; since
`arccos` is strictly decreasing, `angle > 60` iff `cos(angle) < 1/2`, iff
`2*dot < |v1||v2|`, iff `dot < 0` or `4*dot^2 < |v1|^2*|v2|^2` (the clip
cannot change the verdict because 1/2 lies inside `[-1, 1]`).  Degenerate
vectors return angle 0, which is not `> 60`. -/
def angle_gt_60 (p1 p2 p3 : ℚ × ℚ) : Bool :=
  let v1 : ℚ × ℚ := (p1.1 - p2.1, p1.2 - p2.2)
  let v2 : ℚ × ℚ := (p3.1 - p2.1, p3.2 - p2.2)
  let dot := v1.1 * v2.1 + v1.2 * v2.2
  let q1 := v1.1 ^ 2 + v1.2 ^ 2
  let q2 := v2.1 ^ 2 + v2.2 ^ 2
  if q1 = 0 ∨ q2 = 0 then false
  else if dot < 0 then true
  else decide (4 * dot ^ 2 < q1 * q2)

/-- The call to `_calculate_angle` followed by the `> 60` comparison; on a
malformed coordinate the vector arithmetic raises (`.error ()`). -/
def calculate_angle_gt_60 : PyCoord → PyCoord → PyCoord → Except Unit Bool
  | .pair a b, .pair c d, .pair e f => .ok (angle_gt_60 (a, b) (c, d) (e, f))
  | _, _, _ => .error ()

/-- The counting loop of `_count_sharp_turns` over the index list,
carrying the accumulator. -/
def sharp_turns_fold (segment_df : List Row) (coords : List PyCoord) :
    List ℕ → ℕ → Except Unit ℕ
  | [], acc => .ok acc
  | i :: is, acc =>
      match calculate_angle_gt_60 (coords.getD (i - 1) .bad) (coords.getD i .bad)
          (coords.getD (i + 1) .bad) with
      | .error e => .error e
      | .ok gt60 =>
          let acc' :=
            if i < segment_df.length - 1 then
              let dist := (segment_df.getD (i + 1) default).distance -
                (segment_df.getD (i - 1) default).distance
              if gt60 ∧ dist < 50 then acc + 1 else acc
            else acc
          sharp_turns_fold segment_df coords is acc'

/-- The `_count_sharp_turns` method.  Note that `segment_df` is built from
a list of dicts, so its index is a fresh `RangeIndex`: `start_idx` is
always 0 and `end_idx` is always `len(segment_df) - 1`, hence the
coordinate slice taken is the first `len(segment_df)` elements of the
whole route's coordinate list. -/
def count_sharp_turns (segment_df : List Row) (coordinates : Option (List PyCoord)) :
    Except Unit ℕ :=
  match coordinates with
  | none => .ok 0
  | some cl =>
      if cl.length = 0 ∨ segment_df.length < 3 then .ok 0
      else
        let start_idx : ℕ := 0
        let end_idx : ℕ := segment_df.length - 1
        if cl.length ≤ end_idx ∨ cl.length ≤ start_idx then .ok 0
        else
          let segment_coords := cl.take (end_idx + 1)
          sharp_turns_fold segment_df segment_coords
            (List.range' 1 (segment_coords.length - 2)) 0

/-! ### Descent detector (`_detect_descents`) -/

/-- The record built and appended by `_validate_and_append_descent`, or
`.ok none` when the candidate is rejected; `.error` models an exception
raised while counting sharp turns on malformed coordinates. -/
def validate_descent (seg : List Row) (start_idx : ℕ) (min_length_m min_loss_m : ℚ)
    (coordinates : Option (List PyCoord)) : Except Unit (Option Segment) :=
  if seg.length < 2 then .ok none
  else
    let length := seg_length seg
    let loss := seg_loss seg
    if length < min_length_m ∨ loss < min_loss_m then .ok none
    else
      let avg_slope := if 0 < length then -(loss / length) * 100 else 0
      let pg := seg.map Row.plot_grade
      let category := classify_descent length |avg_slope|
      let segment_type := if category ≠ "Uncategorized" then "descent" else "downhill"
      match (if segment_type = "descent" ∧ pyTruthy coordinates then
               count_sharp_turns seg coordinates
             else .ok 0) with
      | .error e => .error e
      | .ok sharp_turns =>
          .ok (some
            { type := segment_type
              category := category
              start_distance := ((seg.head?).map Row.distance).getD 0
              end_distance := ((seg.getLast?).map Row.distance).getD 0
              distance := length
              start_altitude := ((seg.head?).map Row.ele).getD 0
              end_altitude := ((seg.getLast?).map Row.ele).getD 0
              elevation_gain := 0
              elevation_loss := loss
              elevation_change := -loss
              grade := avg_slope
              max_grade := qmax pg
              min_grade := qmin pg
              grade_variance := qvar pg
              sharp_turns := some (if segment_type = "descent" then sharp_turns else 0)
              start_idx := start_idx
              end_idx := start_idx + seg.length - 1 })

/-- The `_validate_and_append_descent` method: returns the updated
descents list. -/
def validate_and_append_descent (descents : List Segment) (seg : List Row)
    (start_idx : ℕ) (min_length_m min_loss_m : ℚ)
    (coordinates : Option (List PyCoord)) : Except Unit (List Segment) :=
  match validate_descent seg start_idx min_length_m min_loss_m coordinates with
  | .error e => .error e
  | .ok (some r) => .ok (descents ++ [r])
  | .ok none => .ok descents

/-- The loop state of `_detect_descents`. -/
structure DescentScan where
  state : String
  start_idx : ℕ
  segment_points : List Row
  pause_start_idx : ℕ
  pause_length : ℚ
  pause_ascent : ℚ
  descents : List Segment
deriving Repr

/-- Initial state of the descent scan. -/
def descentInit : DescentScan :=
  { state := "SEARCHING", start_idx := 0, segment_points := []
    pause_start_idx := 0, pause_length := 0, pause_ascent := 0, descents := [] }

/-- One iteration of the `_detect_descents` loop at index `i`. -/
def descent_step (start_threshold end_threshold max_pause_length_m max_pause_ascent_m
    min_length_m min_loss_m : ℚ) (coordinates : Option (List PyCoord)) (i : ℕ)
    (prev cur : Row) (s : DescentScan) : Except Unit DescentScan :=
  let slope := cur.plot_grade
  let elev_diff := cur.ele - prev.ele
  let dist_diff := cur.distance - prev.distance
  if s.state = "SEARCHING" then
    if slope ≤ start_threshold then
      .ok { s with state := "IN_DESCENT", start_idx := i - 1, segment_points := [prev, cur] }
    else .ok s
  else if s.state = "IN_DESCENT" then
    if slope ≤ end_threshold then
      .ok { s with segment_points := s.segment_points ++ [cur] }
    else
      .ok { s with state := "EVALUATING_PAUSE", pause_start_idx := i - 1
                   pause_length := 0, pause_ascent := 0
                   segment_points := s.segment_points ++ [cur] }
  else if s.state = "EVALUATING_PAUSE" then
    let sp := s.segment_points ++ [cur]
    let pl := s.pause_length + dist_diff
    let pa := if 0 < elev_diff then s.pause_ascent + elev_diff else s.pause_ascent
    if slope ≤ end_threshold then
      .ok { s with state := "IN_DESCENT", segment_points := sp
                   pause_length := pl, pause_ascent := pa }
    else if max_pause_length_m < pl ∨ max_pause_ascent_m < pa then
      match validate_and_append_descent s.descents
          (sp.take (sp.length - (i - s.pause_start_idx)))
          s.start_idx min_length_m min_loss_m coordinates with
      | .error e => .error e
      | .ok l =>
          .ok { s with state := "SEARCHING", segment_points := []
                       pause_length := pl, pause_ascent := pa, descents := l }
    else
      .ok { s with segment_points := sp, pause_length := pl, pause_ascent := pa }
  else .ok s

/-- The `_detect_descents` loop. -/
def detect_descents_aux (st et mpl mpa minL minLoss : ℚ)
    (coordinates : Option (List PyCoord)) :
    ℕ → Row → List Row → DescentScan → Except Unit DescentScan
  | _, _, [], s => .ok s
  | i, prev, cur :: rest, s =>
      match descent_step st et mpl mpa minL minLoss coordinates i prev cur s with
      | .error e => .error e
      | .ok s' => detect_descents_aux st et mpl mpa minL minLoss coordinates (i + 1) cur rest s'

/-- End-of-loop flush of `_detect_descents`. -/
def descent_finalize (minL minLoss : ℚ) (coordinates : Option (List PyCoord))
    (s : DescentScan) : Except Unit (List Segment) :=
  if (s.state = "IN_DESCENT" ∨ s.state = "EVALUATING_PAUSE") ∧ s.segment_points ≠ [] then
    validate_and_append_descent s.descents s.segment_points s.start_idx minL minLoss coordinates
  else .ok s.descents

/-- `_detect_descents` with its default parameters. -/
def detect_descents (df : List Row) (coordinates : Option (List PyCoord) := none)
    (start_threshold : ℚ := -3) (end_threshold : ℚ := -1.5)
    (max_pause_length_m : ℚ := 200) (max_pause_ascent_m : ℚ := 15)
    (min_length_m : ℚ := 300) (min_loss_m : ℚ := 20) : Except Unit (List Segment) :=
  match df with
  | [] => .ok []
  | r0 :: rest =>
      match detect_descents_aux start_threshold end_threshold max_pause_length_m
          max_pause_ascent_m min_length_m min_loss_m coordinates 1 r0 rest descentInit with
      | .error e => .error e
      | .ok s => descent_finalize min_length_m min_loss_m coordinates s

/-- Variant of `descent_step` following the spec's words for the
pause-failure branch, as in `climb_step_stable`. -/
def descent_step_stable (start_threshold end_threshold max_pause_length_m
    max_pause_ascent_m min_length_m min_loss_m : ℚ)
    (coordinates : Option (List PyCoord)) (i : ℕ) (prev cur : Row)
    (s : DescentScan) : Except Unit DescentScan :=
  let slope := cur.plot_grade
  let elev_diff := cur.ele - prev.ele
  let dist_diff := cur.distance - prev.distance
  if s.state = "SEARCHING" then
    if slope ≤ start_threshold then
      .ok { s with state := "IN_DESCENT", start_idx := i - 1, segment_points := [prev, cur] }
    else .ok s
  else if s.state = "IN_DESCENT" then
    if slope ≤ end_threshold then
      .ok { s with segment_points := s.segment_points ++ [cur] }
    else
      .ok { s with state := "EVALUATING_PAUSE", pause_start_idx := i - 1
                   pause_length := 0, pause_ascent := 0
                   segment_points := s.segment_points ++ [cur] }
  else if s.state = "EVALUATING_PAUSE" then
    let sp := s.segment_points ++ [cur]
    let pl := s.pause_length + dist_diff
    let pa := if 0 < elev_diff then s.pause_ascent + elev_diff else s.pause_ascent
    if slope ≤ end_threshold then
      .ok { s with state := "IN_DESCENT", segment_points := sp
                   pause_length := pl, pause_ascent := pa }
    else if max_pause_length_m < pl ∨ max_pause_ascent_m < pa then
      match validate_and_append_descent s.descents
          (sp.take (s.pause_start_idx + 1 - s.start_idx))
          s.start_idx min_length_m min_loss_m coordinates with
      | .error e => .error e
      | .ok l =>
          .ok { s with state := "SEARCHING", segment_points := []
                       pause_length := pl, pause_ascent := pa, descents := l }
    else
      .ok { s with segment_points := sp, pause_length := pl, pause_ascent := pa }
  else .ok s

/-- The descent-detector loop built on `descent_step_stable`. -/
def detect_descents_aux_stable (st et mpl mpa minL minLoss : ℚ)
    (coordinates : Option (List PyCoord)) :
    ℕ → Row → List Row → DescentScan → Except Unit DescentScan
  | _, _, [], s => .ok s
  | i, prev, cur :: rest, s =>
      match descent_step_stable st et mpl mpa minL minLoss coordinates i prev cur s with
      | .error e => .error e
      | .ok s' =>
          detect_descents_aux_stable st et mpl mpa minL minLoss coordinates (i + 1) cur rest s'

/-- The descent detector built on `descent_step_stable`. -/
def detect_descents_stable (df : List Row) (coordinates : Option (List PyCoord) := none)
    (start_threshold : ℚ := -3) (end_threshold : ℚ := -1.5)
    (max_pause_length_m : ℚ := 200) (max_pause_ascent_m : ℚ := 15)
    (min_length_m : ℚ := 300) (min_loss_m : ℚ := 20) : Except Unit (List Segment) :=
  match df with
  | [] => .ok []
  | r0 :: rest =>
      match detect_descents_aux_stable start_threshold end_threshold max_pause_length_m
          max_pause_ascent_m min_length_m min_loss_m coordinates 1 r0 rest descentInit with
      | .error e => .error e
      | .ok s => descent_finalize min_length_m min_loss_m coordinates s

/-! ### Gap filler (`_fill_gaps`, `_create_flat_segment`) -/

/-- Distance column value at a positional index. -/
def dist_at (df : List Row) (i : ℕ) : ℚ := (df.getD i default).distance

/-- The `plot_grade` column over the inclusive label slice
`df.loc[s:e, 'plot_grade']` (labels are positions: default RangeIndex). -/
def plot_slice (df : List Row) (s e : ℕ) : List ℚ :=
  ((df.map Row.plot_grade).drop s).take (e + 1 - s)

/-- `df[df['distance'] >= v].index[0]`; `.error` is the `IndexError` on an
empty selection. -/
def first_idx_ge (df : List Row) (v : ℚ) : Except Unit ℕ :=
  match (List.range df.length).find? (fun j => v ≤ dist_at df j) with
  | some j => .ok j
  | none => .error ()

/-- `df[df['distance'] <= v].index[-1]`; `.error` is the `IndexError` on
an empty selection. -/
def last_idx_le (df : List Row) (v : ℚ) : Except Unit ℕ :=
  match ((List.range df.length).filter (fun j => dist_at df j ≤ v)).getLast? with
  | some j => .ok j
  | none => .error ()

/-- The `_create_flat_segment` method.  The built dict has no
`sharp_turns` key, modelled as `sharp_turns := none`. -/
def create_flat_segment (df : List Row) (start_idx end_idx : ℕ) (avg_grade : ℚ) :
    Segment :=
  let start_dist := dist_at df start_idx
  let end_dist := dist_at df end_idx
  let start_alt := (df.getD start_idx default).ele
  let end_alt := (df.getD end_idx default).ele
  let elev_change := end_alt - start_alt
  let pg := plot_slice df start_idx end_idx
  { type := if 1 < avg_grade then "uphill"
            else if avg_grade < -1 then "downhill"
            else "flat"
    category := "Uncategorized"
    start_distance := start_dist
    end_distance := end_dist
    distance := end_dist - start_dist
    start_altitude := start_alt
    end_altitude := end_alt
    elevation_gain := max 0 elev_change
    elevation_loss := max 0 (-elev_change)
    elevation_change := elev_change
    grade := avg_grade
    max_grade := qmax pg
    min_grade := qmin pg
    grade_variance := qvar pg
    sharp_turns := none
    start_idx := start_idx
    end_idx := end_idx }

/-- The loop body plus trailing fill of `_fill_gaps`, recursing over the
sorted candidate list and carrying `last_end_dist`. -/
def fill_gaps_aux (df : List Row) : ℚ → List Segment → Except Unit (List Segment)
  | last_end_dist, [] =>
      if last_end_dist < ((df.getLast?).map Row.distance).getD 0 - 50 then
        match first_idx_ge df last_end_dist with
        | .error e => .error e
        | .ok gap_start_idx =>
            let gap_end_idx := df.length - 1
            let gap_segment := create_flat_segment df gap_start_idx gap_end_idx
              (qmean (plot_slice df gap_start_idx gap_end_idx))
            if 50 < gap_segment.distance then .ok [gap_segment] else .ok []
      else .ok []
  | last_end_dist, seg :: rest =>
      let preE : Except Unit (List Segment) :=
        if last_end_dist + 50 < seg.start_distance then
          match first_idx_ge df last_end_dist, last_idx_le df seg.start_distance with
          | .ok gap_start_idx, .ok gap_end_idx =>
              let gap_segment := create_flat_segment df gap_start_idx gap_end_idx
                (qmean (plot_slice df gap_start_idx gap_end_idx))
              .ok (if 50 < gap_segment.distance then [gap_segment] else [])
          | .error e, _ => .error e
          | _, .error e => .error e
        else .ok []
      match preE, fill_gaps_aux df seg.end_distance rest with
      | .ok pre, .ok tail => .ok (pre ++ seg :: tail)
      | .error e, _ => .error e
      | _, .error e => .error e

/-- The `_fill_gaps` method.  With no candidates the whole route becomes
one filler segment; otherwise the loop starts with `last_end_dist = 0`. -/
def fill_gaps (df : List Row) (segments : List Segment) : Except Unit (List Segment) :=
  if segments.isEmpty then
    .ok [create_flat_segment df 0 (df.length - 1)
      (qmean (df.map Row.plot_grade))]
  else fill_gaps_aux df 0 segments

/-! ### Sorting the merged candidates -/

/-- The sort key comparison used by `all_segments.sort(key=lambda x:
x['start_distance'])`; insertion sort with this non-strict relation is a
stable sort, hence extensionally identical to Python's stable sort. -/
def segLE (a b : Segment) : Prop := a.start_distance ≤ b.start_distance

instance : DecidableRel segLE := fun a b =>
  inferInstanceAs (Decidable (a.start_distance ≤ b.start_distance))

instance : IsTotal Segment segLE := ⟨fun a b => le_total a.start_distance b.start_distance⟩

instance : IsTrans Segment segLE := ⟨fun _ _ _ h1 h2 => le_trans h1 h2⟩

/-! ### Top level (`cut_segment`) -/

/-- Construction of the working DataFrame of `cut_segment`: the four
input columns plus the `grade` and `plot_grade` columns added by
`_calculate_grades` and `_apply_smoothing`. -/
def build_df (altitude_profile distance_profile lat lon : List ℚ)
    (smooth_window : ℕ) : List Row :=
  let n := altitude_profile.length
  let grade := grades_q altitude_profile distance_profile
  let plot_grade := apply_smoothing grade smooth_window
  (List.range n).map (fun i =>
    { ele := altitude_profile.getD i 0
      distance := distance_profile.getD i 0
      lat := lat.getD i 0
      lon := lon.getD i 0
      grade := grade.getD i 0
      plot_grade := plot_grade.getD i 0 : Row })

/-- The coordinate-handling block at the top of `cut_segment`
(lines 18-30 of the source): the `lat`/`lon` columns, zero-filled when
`coordinates` is `None` or its conversion raises. -/
def coords_columns (n : ℕ) (coordinates : Option (List PyCoord)) :
    List ℚ × List ℚ :=
  match coordinates with
  | none => (List.replicate n 0, List.replicate n 0)
  | some cl =>
      match extract_lat_lon cl with
      | some ll => ll
      | none => (List.replicate n 0, List.replicate n 0)

/-- The `cut_segment` method.  `coordinates = none` is Python `None`.
A structurally broken call (column lists of different lengths handed to
the `pd.DataFrame` constructor) raises, modelled as `.error`. -/
def cut_segment (altitude_profile distance_profile : List ℚ)
    (coordinates : Option (List PyCoord) := none) (smooth_window : ℕ := 10) :
    Except Unit (List Segment) :=
  let n := altitude_profile.length
  let latlon : List ℚ × List ℚ := coords_columns n coordinates
  if distance_profile.length ≠ n ∨ latlon.1.length ≠ n then .error ()
  else if n < 2 then .ok []
  else
    -- the body of cut_segment after the DataFrame is built
    let df := build_df altitude_profile distance_profile latlon.1 latlon.2 smooth_window
    let climbs := detect_climbs df
    match detect_descents df coordinates with
    | .error e => .error e
    | .ok descents =>
        let all_segments := (climbs ++ descents).insertionSort segLE
        fill_gaps df all_segments

/-- Helper to observe an `Except` result as an `Option`. -/
def exOk : Except Unit (List Segment) → Option (List Segment)
  | .ok l => some l
  | .error _ => none

/-- Decidable equality of `Except` values, used to evaluate the model on
concrete inputs. -/
instance {ε α : Type} [DecidableEq ε] [DecidableEq α] : DecidableEq (Except ε α) :=
  fun a b =>
    match a, b with
    | .error e, .error f =>
        match decEq e f with
        | .isTrue h => .isTrue (h ▸ rfl)
        | .isFalse h => .isFalse (fun hh => h (Except.error.inj hh))
    | .ok x, .ok y =>
        match decEq x y with
        | .isTrue h => .isTrue (h ▸ rfl)
        | .isFalse h => .isFalse (fun hh => h (Except.ok.inj hh))
    | .error _, .ok _ => .isFalse (fun hh => Except.noConfusion hh)
    | .ok _, .error _ => .isFalse (fun hh => Except.noConfusion hh)

/-! ### Lemmas about the grade calculator and smoother -/

theorem series_diff_length (xs : List ℚ) : (series_diff xs).length = xs.length := by
  cases xs with
  | nil => rfl
  | cons a t =>
      simp only [series_diff, List.length_cons, List.tail_cons, List.length_zipWith]
      omega

theorem series_diff_getElem_zero (xs : List ℚ) (h : 0 < xs.length) :
    (series_diff xs)[0]? = some none := by
  cases xs with
  | nil => simp at h
  | cons a t => simp [series_diff]

theorem series_diff_getElem_succ (xs : List ℚ) (j : ℕ) (h : j + 1 < xs.length) :
    (series_diff xs)[j + 1]? = some (some (xs.getD (j + 1) 0 - xs.getD j 0)) := by
  cases xs with
  | nil => simp at h
  | cons a t =>
      have hj : j < t.length := by simp at h; omega
      have hj2 : j < (a :: t).length := by simp; omega
      show (none :: List.zipWith (fun a b => some (a - b)) t (a :: t))[j + 1]? = _
      rw [List.getElem?_cons_succ, List.getElem?_zipWith',
        List.getElem?_eq_getElem hj, List.getElem?_eq_getElem hj2]
      simp only [Option.map_some', Option.some_bind]
      rw [List.getD_eq_getElem?_getD, List.getD_eq_getElem?_getD,
        List.getElem?_cons_succ, List.getElem?_eq_getElem hj,
        List.getElem?_eq_getElem hj2]
      rfl

/-- C5, counterexample: on the concrete profile `ele = [0, 5]`,
`dist = [0, 100]` the grade at index 0 is the defined value 0 (the
`np.where` fallback), not NaN as the claim states. -/
theorem c5_counterexample :
    (calculate_grades [0, 5] [0, 100])[0]? = some (some 0) ∧
    (calculate_grades [0, 5] [0, 100])[0]? ≠ some none := by
  constructor
  · rfl
  · intro h
    simp [calculate_grades, series_diff] at h

/-- C5 (amended): for equal-length altitude/distance sequences the grade
signal has one entry per input point; for every `i ≥ 1` it equals
`(altitude[i]-altitude[i-1])/(distance[i]-distance[i-1])*100` when the
distance delta is positive and 0 otherwise; and the entry at index 0 is
the defined number 0 (`np.where` evaluates the NaN condition as false),
not NaN. -/
theorem c5_amended (ele dist : List ℚ) (hlen : ele.length = dist.length) :
    (calculate_grades ele dist).length = dist.length ∧
    (0 < dist.length → (calculate_grades ele dist)[0]? = some (some 0)) ∧
    ∀ i, 1 ≤ i → i < dist.length →
      (calculate_grades ele dist)[i]? =
        some (some (if 0 < dist.getD i 0 - dist.getD (i - 1) 0
          then (ele.getD i 0 - ele.getD (i - 1) 0) /
            (dist.getD i 0 - dist.getD (i - 1) 0) * 100
          else 0)) := by
  refine ⟨?_, ?_, ?_⟩
  · simp [calculate_grades, List.length_zipWith, series_diff_length, hlen]
  · intro h0
    have h0e : 0 < ele.length := by omega
    rw [calculate_grades, List.getElem?_zipWith', series_diff_getElem_zero dist h0,
      series_diff_getElem_zero ele h0e]
    rfl
  · intro i h1 hi
    obtain ⟨j, rfl⟩ : ∃ j, i = j + 1 := ⟨i - 1, by omega⟩
    have hie : j + 1 < ele.length := by omega
    rw [calculate_grades, List.getElem?_zipWith', series_diff_getElem_succ dist j hi,
      series_diff_getElem_succ ele j hie]
    simp only [Option.map_some', Option.some_bind, Nat.add_sub_cancel]
    split <;> simp_all

/-- C5, witness for the amended theorem at a concrete input. -/
theorem c5_witness :
    ([0, 5] : List ℚ).length = ([0, 100] : List ℚ).length ∧
    (calculate_grades [0, 5] [0, 100]).length = ([0, 100] : List ℚ).length :=
  ⟨by decide, (c5_amended [0, 5] [0, 100] (by decide)).1⟩

/-- C6, counterexample: with requested window 10 and sequence length 4
the effective window is `min 10 4 = 4`, incremented to 5 because it is
even, which exceeds the sequence length — refuting the claim that the
effective window never exceeds the sequence length. -/
theorem c6_counterexample :
    effective_window 10 4 = 5 ∧ ¬ effective_window 10 4 ≤ 4 := by decide

/-- C6 (amended): the effective window is always odd and never exceeds
`min window n + 1` (it can exceed the sequence length `n` by exactly one
when `n` is even and `window ≥ n`, because the clamp happens before the
odd-forcing); the smoothed signal has one value per input point, and each
value is the mean of the window clipped to the sequence boundary
(`min_periods=1`: partial windows still produce a value). -/
theorem c6_amended (window : ℕ) (g : List ℚ) :
    effective_window window g.length % 2 = 1 ∧
    effective_window window g.length ≤ min window g.length + 1 ∧
    (apply_smoothing g window).length = g.length ∧
    ∀ i, i < g.length →
      (apply_smoothing g window).getD i 0 =
        qmean ((g.drop (i - effective_window window g.length / 2)).take
          (min g.length (i + effective_window window g.length / 2 + 1) -
            (i - effective_window window g.length / 2))) := by
  refine ⟨?_, ?_, ?_, ?_⟩
  · show (if min window g.length % 2 = 0 then min window g.length + 1
      else min window g.length) % 2 = 1
    split <;> omega
  · show (if min window g.length % 2 = 0 then min window g.length + 1
      else min window g.length) ≤ min window g.length + 1
    split <;> omega
  · simp [apply_smoothing]
  · intro i hi
    rw [List.getD_eq_getElem?_getD, apply_smoothing, List.getElem?_map,
      List.getElem?_range hi]
    rfl

/-- C6, witness for the amended theorem at a concrete input. -/
theorem c6_witness :
    (0 : ℕ) < ([1, 2, 3, 4] : List ℚ).length ∧
    (apply_smoothing [1, 2, 3, 4] 10).getD 0 0 =
      qmean ((([1, 2, 3, 4] : List ℚ).drop
          (0 - effective_window 10 ([1, 2, 3, 4] : List ℚ).length / 2)).take
        (min ([1, 2, 3, 4] : List ℚ).length
            (0 + effective_window 10 ([1, 2, 3, 4] : List ℚ).length / 2 + 1) -
          (0 - effective_window 10 ([1, 2, 3, 4] : List ℚ).length / 2))) :=
  ⟨by decide, (c6_amended 10 [1, 2, 3, 4]).2.2.2 0 (by decide)⟩

/-! ### Claims about candidate validation (C7, C10) -/

/-- Modelled from the spec's words: the "accumulated directional
elevation change" of a candidate, i.e. the sum of the positive
consecutive altitude deltas within the segment.  Used only to compare the
claim's reading against the measure the code computes (`seg_gain`). -/
def spec_directional_gain (seg : List Row) : ℚ :=
  (List.zipWith (fun prev cur => cur.ele - prev.ele) seg seg.tail).foldl
    (fun a d => if 0 < d then a + d else a) 0

/-- A convenience Row constructor for concrete test profiles. -/
def test_row (d e : ℚ) : Row :=
  { ele := e, distance := d, lat := 0, lon := 0, grade := 0, plot_grade := 0 }

/-- Concrete candidate refuting C7: 4 points, length exactly 300,
accumulated positive deltas exactly 20. -/
def candC7 : List Row :=
  [test_row 0 0, test_row 100 10, test_row 200 5, test_row 300 15]

/-- C7, counterexample: this candidate has at least 2 points, length
exactly `min_length_m = 300` and accumulated directional elevation change
exactly `min_gain_m = 20`, yet `_validate_and_append_climb` rejects it:
the code's gain measure is the diff-sum of the *filtered* rising-point
subsequence, which telescopes to 5 here. -/
theorem c7_counterexample :
    2 ≤ candC7.length ∧ seg_length candC7 = 300 ∧
    spec_directional_gain candC7 = 20 ∧ seg_gain candC7 = 5 ∧
    validate_climb candC7 0 300 20 = none := by with_unfolding_all decide

/-- Whether `_validate_and_append_descent` would append a record. -/
def descent_accepts (seg : List Row) (start_idx : ℕ) (minL minLoss : ℚ)
    (coordinates : Option (List PyCoord)) : Bool :=
  match validate_descent seg start_idx minL minLoss coordinates with
  | .ok (some _) => true
  | _ => false

/-- C7 (amended): validation thresholds are inclusive, but on the
measures the code actually computes: a flushed candidate is retained iff
it has at least 2 points, its length is at least `min_length_m`, and its
gain (resp. loss) — computed as the diff-sum of the rising (resp.
falling) point subsequence, not the sum of positive (negative) deltas —
is at least `min_gain_m` (resp. `min_loss_m`). -/
theorem c7_amended :
    (∀ (seg : List Row) (start_idx : ℕ) (minL minG : ℚ),
      (validate_climb seg start_idx minL minG).isSome = true ↔
        2 ≤ seg.length ∧ minL ≤ seg_length seg ∧ minG ≤ seg_gain seg) ∧
    ∀ (seg : List Row) (start_idx : ℕ) (minL minLoss : ℚ),
      descent_accepts seg start_idx minL minLoss none = true ↔
        2 ≤ seg.length ∧ minL ≤ seg_length seg ∧ minLoss ≤ seg_loss seg := by
  constructor
  · intro seg start_idx minL minG
    by_cases h2 : seg.length < 2
    · simp only [validate_climb, if_pos h2, Option.isSome_none, Bool.false_eq_true,
        false_iff]
      rintro ⟨hl2, -, -⟩
      omega
    · by_cases h3 : seg_length seg < minL ∨ seg_gain seg < minG
      · simp only [validate_climb, if_neg h2, if_pos h3, Option.isSome_none,
          Bool.false_eq_true, false_iff]
        rintro ⟨-, hL, hG⟩
        rcases h3 with h3 | h3
        · exact absurd hL (not_le.mpr h3)
        · exact absurd hG (not_le.mpr h3)
      · rw [not_or, not_lt, not_lt] at h3
        simp only [validate_climb, if_neg h2,
          if_neg (by rw [not_or, not_lt, not_lt]; exact h3 :
            ¬(seg_length seg < minL ∨ seg_gain seg < minG)),
          Option.isSome_some, true_iff]
        exact ⟨by omega, h3.1, h3.2⟩
  · intro seg start_idx minL minLoss
    by_cases h2 : seg.length < 2
    · simp only [descent_accepts, validate_descent, if_pos h2, Bool.false_eq_true,
        false_iff]
      rintro ⟨hl2, -, -⟩
      omega
    · by_cases h3 : seg_length seg < minL ∨ seg_loss seg < minLoss
      · simp only [descent_accepts, validate_descent, if_neg h2, if_pos h3,
          Bool.false_eq_true, false_iff]
        rintro ⟨-, hL, hG⟩
        rcases h3 with h3 | h3
        · exact absurd hL (not_le.mpr h3)
        · exact absurd hG (not_le.mpr h3)
      · have h3n : ¬(seg_length seg < minL ∨ seg_loss seg < minLoss) := h3
        rw [not_or, not_lt, not_lt] at h3
        simp only [descent_accepts, validate_descent, if_neg h2, if_neg h3n, pyTruthy,
          Bool.false_eq_true, and_false, if_false, true_iff]
        exact ⟨by omega, h3.1, h3.2⟩

/-- C10: every climb record carries `elevation_loss = 0` and
`elevation_change = elevation_gain`; every descent record carries
`elevation_gain = 0` and `elevation_change = -elevation_loss`,
irrespective of counter-directional movement inside the segment. -/
theorem c10_invariant :
    (∀ (seg : List Row) (start_idx : ℕ) (minL minG : ℚ) (r : Segment),
      validate_climb seg start_idx minL minG = some r →
        r.elevation_loss = 0 ∧ r.elevation_change = r.elevation_gain) ∧
    ∀ (seg : List Row) (start_idx : ℕ) (minL minLoss : ℚ)
      (coords : Option (List PyCoord)) (r : Segment),
      validate_descent seg start_idx minL minLoss coords = .ok (some r) →
        r.elevation_gain = 0 ∧ r.elevation_change = -r.elevation_loss := by
  constructor
  · intro seg start_idx minL minG r h
    by_cases h2 : seg.length < 2
    · rw [validate_climb, if_pos h2] at h
      exact absurd h (by simp)
    · by_cases h3 : seg_length seg < minL ∨ seg_gain seg < minG
      · simp only [validate_climb, if_neg h2, if_pos h3] at h
        exact absurd h (by simp)
      · simp only [validate_climb, if_neg h2, if_neg h3] at h
        rw [Option.some.injEq] at h
        subst h
        exact ⟨rfl, rfl⟩
  · intro seg start_idx minL minLoss coords r h
    by_cases h2 : seg.length < 2
    · rw [validate_descent, if_pos h2] at h
      exact absurd h (by simp)
    · by_cases h3 : seg_length seg < minL ∨ seg_loss seg < minLoss
      · simp only [validate_descent, if_neg h2, if_pos h3] at h
        exact absurd h (by simp)
      · simp only [validate_descent, if_neg h2, if_neg h3] at h
        split at h
        · exact absurd h (by simp)
        · rw [Except.ok.injEq, Option.some.injEq] at h
          subst h
          exact ⟨rfl, rfl⟩

/-- Concrete accepted climb candidate used by the C10 witness. -/
def candC10 : List Row := [test_row 0 0, test_row 150 15, test_row 300 40]

/-- Concrete accepted descent candidate used by the C10 witness. -/
def candC10d : List Row := [test_row 0 40, test_row 150 25, test_row 300 0]

/-- The record accepted from `candC10` (a concrete accepted climb). -/
def recC10 : Segment := (validate_climb candC10 0 300 20).getD default

/-- The record accepted from `candC10d` (a concrete accepted descent). -/
def recC10d : Segment :=
  match validate_descent candC10d 0 300 20 none with
  | .ok (some r) => r
  | _ => default

/-- C10, witness: the invariant evaluated on concrete accepted climb and
descent candidates. -/
theorem c10_witness :
    (recC10.elevation_loss = 0 ∧ recC10.elevation_change = recC10.elevation_gain) ∧
    (recC10d.elevation_gain = 0 ∧ recC10d.elevation_change = -recC10d.elevation_loss) :=
  ⟨c10_invariant.1 candC10 0 300 20 recC10 (by with_unfolding_all rfl),
   c10_invariant.2 candC10d 0 300 20 none recC10d (by with_unfolding_all rfl)⟩

/-! ### C8: filler segments -/

/-- C8, counterexample: a filler record built by `_create_flat_segment`
has no `sharp_turns` key at all (modelled `none`), so on this concrete
input the claim "`sharp_turns` is always 0" fails. -/
theorem c8_counterexample :
    (create_flat_segment [test_row 0 0, test_row 10 0] 0 1 0).sharp_turns ≠ some 0 := by
  decide

/-- C8 (amended): every filler segment has type determined by the average
smoothed grade over its gap (`> 1` uphill, `< -1` downhill, else flat),
category always `Uncategorized`, and *no* `sharp_turns` key (rather than
the value 0); and with an empty candidate list the output is exactly one
filler segment spanning the whole route (`start_idx = 0`,
`end_idx = N-1`). -/
theorem c8_amended :
    (∀ (df : List Row) (s e : ℕ) (g : ℚ),
      (create_flat_segment df s e g).category = "Uncategorized" ∧
      (create_flat_segment df s e g).sharp_turns = none ∧
      (create_flat_segment df s e g).type =
        (if 1 < g then "uphill" else if g < -1 then "downhill" else "flat")) ∧
    ∀ df : List Row,
      fill_gaps df [] =
        .ok [create_flat_segment df 0 (df.length - 1) (qmean (df.map Row.plot_grade))] ∧
      (create_flat_segment df 0 (df.length - 1)
        (qmean (df.map Row.plot_grade))).start_idx = 0 ∧
      (create_flat_segment df 0 (df.length - 1)
        (qmean (df.map Row.plot_grade))).end_idx = df.length - 1 := by
  exact ⟨fun df s e g => ⟨rfl, rfl, rfl⟩, fun df => ⟨rfl, rfl, rfl⟩⟩

/-! ### C3: climb classification and the 100 m / 1000 m worked example -/

/-- Modelled from the spec's words: climb category from
`score = length_m * avg_slope` by descending thresholds, `Uncategorized`
below 3% average slope. -/
def spec_climb_category (length_m avg_slope : ℚ) : String :=
  if avg_slope < 3 then "Uncategorized"
  else
    let score := length_m * avg_slope
    if 80000 ≤ score then "HC"
    else if 64000 ≤ score then "Cat 1"
    else if 32000 ≤ score then "Cat 2"
    else if 16000 ≤ score then "Cat 3"
    else if 8000 ≤ score then "Cat 4"
    else "Uncategorized"

/-- Reduction of `cut_segment` when the coordinate columns come out
zero-filled (coordinates absent or malformed) and the profile is
well-formed with at least 2 points. -/
theorem cut_segment_zero_coords (alt dist : List ℚ) (coords : Option (List PyCoord))
    (w : ℕ)
    (hz : coords_columns alt.length coords =
      (List.replicate alt.length 0, List.replicate alt.length 0))
    (hlen : dist.length = alt.length) (h2 : ¬ alt.length < 2) :
    cut_segment alt dist coords w =
      match detect_descents
          (build_df alt dist (List.replicate alt.length 0) (List.replicate alt.length 0) w)
          coords with
      | .error e => .error e
      | .ok descents =>
          fill_gaps
            (build_df alt dist (List.replicate alt.length 0) (List.replicate alt.length 0) w)
            ((detect_climbs
                (build_df alt dist (List.replicate alt.length 0) (List.replicate alt.length 0) w)
              ++ descents).insertionSort segLE) := by
  simp only [cut_segment]
  rw [hz]
  rw [if_neg (by simp [hlen]), if_neg h2]

/-- The worked example of §8: a monotonic profile rising 100 m over
1000 m, 11 samples. -/
def alt3 : List ℚ := [0, 10, 20, 30, 40, 50, 60, 70, 80, 90, 100]

/-- Cumulative distances of the worked example. -/
def dist3 : List ℚ := [0, 100, 200, 300, 400, 500, 600, 700, 800, 900, 1000]

/-- The DataFrame `cut_segment` builds for the worked example (grade 10%
everywhere except the index-0 fallback 0; `plot_grade` is the centered
11-point rolling mean). -/
def df3 : List Row :=
  [⟨0, 0, 0, 0, 0, 25/3⟩, ⟨10, 100, 0, 0, 10, 60/7⟩, ⟨20, 200, 0, 0, 10, 35/4⟩,
   ⟨30, 300, 0, 0, 10, 80/9⟩, ⟨40, 400, 0, 0, 10, 9⟩, ⟨50, 500, 0, 0, 10, 100/11⟩,
   ⟨60, 600, 0, 0, 10, 10⟩, ⟨70, 700, 0, 0, 10, 10⟩, ⟨80, 800, 0, 0, 10, 10⟩,
   ⟨90, 900, 0, 0, 10, 10⟩, ⟨100, 1000, 0, 0, 10, 10⟩]

set_option maxRecDepth 8000 in
theorem df3_eq : build_df alt3 dist3 (List.replicate alt3.length 0)
    (List.replicate alt3.length 0) 10 = df3 := by with_unfolding_all decide

/-- The single climb record produced on the worked example. -/
def c3rec : Segment := (validate_climb df3 0 300 20).getD default

set_option maxRecDepth 8000 in
theorem df3_descents : detect_descents df3 none = .ok [] := by with_unfolding_all rfl

set_option maxRecDepth 8000 in
theorem df3_climbs : detect_climbs df3 = [c3rec] := by with_unfolding_all rfl

set_option maxRecDepth 8000 in
theorem df3_fill : fill_gaps df3 [c3rec] = .ok [c3rec] := by with_unfolding_all rfl

/-- Full evaluation of `cut_segment` on the worked example. -/
theorem cut_segment_alt3 : cut_segment alt3 dist3 none 10 = .ok [c3rec] := by
  rw [cut_segment_zero_coords alt3 dist3 none 10 rfl (by decide) (by decide), df3_eq,
    df3_descents, df3_climbs]
  dsimp only [List.cons_append, List.nil_append]
  have hs : List.insertionSort segLE [c3rec] = [c3rec] := rfl
  rw [hs, df3_fill]

set_option maxRecDepth 8000 in
theorem c3rec_distance : c3rec.distance = 1000 := by with_unfolding_all decide

set_option maxRecDepth 8000 in
theorem c3rec_grade : c3rec.grade = 9 := by with_unfolding_all decide

set_option maxRecDepth 8000 in
theorem c3rec_type : c3rec.type = "climb" := by with_unfolding_all decide

set_option maxRecDepth 8000 in
theorem c3rec_category : c3rec.category = "Cat 4" := by with_unfolding_all decide

/-- C3, counterexample: on the worked example the produced score
`length * avg_slope` is 9000, not the claimed 10000 — the gain measure
telescopes to `100 - 10 = 90` (the first rising point is the second
sample), giving an average slope of 9% rather than 10%. -/
theorem c3_counterexample :
    (exOk (cut_segment alt3 dist3 none 10)).map
        (List.map (fun s => s.distance * s.grade)) = some [9000] ∧
    (exOk (cut_segment alt3 dist3 none 10)).map
        (List.map (fun s => s.distance * s.grade)) ≠ some [10000] := by
  rw [cut_segment_alt3]
  simp only [exOk, Option.map_some', List.map_cons, List.map_nil, c3rec_distance,
    c3rec_grade]
  norm_num

set_option maxRecDepth 8000 in
/-- C3 (amended): accepted climb candidates are classified exactly by the
claimed table (`< 3%` slope uncategorized/uphill, otherwise
`score = length * avg_slope` with thresholds 80000/64000/32000/16000/8000,
any category setting `type = climb`); the 100 m over 1000 m worked
example yields exactly one segment of type `climb`, category `Cat 4`, but
with score 9000 (gain evaluates to 90, average slope to 9%), not 10000. -/
theorem c3_amended :
    (∀ L s : ℚ, classify_climb_strava L s = spec_climb_category L s) ∧
    (∀ (seg : List Row) (start_idx : ℕ) (r : Segment),
      validate_climb seg start_idx 300 20 = some r →
        r.category = classify_climb_strava r.distance r.grade ∧
        r.type = (if r.category = "Uncategorized" then "uphill" else "climb")) ∧
    (exOk (cut_segment alt3 dist3 none 10)).map (List.map (fun s => s.type)) =
      some ["climb"] ∧
    (exOk (cut_segment alt3 dist3 none 10)).map (List.map (fun s => s.category)) =
      some ["Cat 4"] ∧
    (exOk (cut_segment alt3 dist3 none 10)).map
      (List.map (fun s => s.distance * s.grade)) = some [9000] := by
  refine ⟨fun L s => rfl, ?_, ?_, ?_, ?_⟩
  · intro seg start_idx r h
    by_cases h2 : seg.length < 2
    · rw [validate_climb, if_pos h2] at h
      exact absurd h (by simp)
    · by_cases h3 : seg_length seg < 300 ∨ seg_gain seg < 20
      · simp only [validate_climb, if_neg h2, if_pos h3] at h
        exact absurd h (by simp)
      · simp only [validate_climb, if_neg h2, if_neg h3] at h
        rw [Option.some.injEq] at h
        subst h
        constructor
        · rfl
        · by_cases hc : classify_climb_strava (seg_length seg)
              (if 0 < seg_length seg then seg_gain seg / seg_length seg * 100 else 0) =
              "Uncategorized"
          · simp [hc]
          · simp [hc]
  · rw [cut_segment_alt3]
    simp only [exOk, Option.map_some', List.map_cons, List.map_nil, c3rec_type]
  · rw [cut_segment_alt3]
    simp only [exOk, Option.map_some', List.map_cons, List.map_nil, c3rec_category]
  · rw [cut_segment_alt3]
    simp only [exOk, Option.map_some', List.map_cons, List.map_nil, c3rec_distance,
      c3rec_grade]
    norm_num

/-- C3, witness: the characterization applied to a concrete accepted
candidate. -/
theorem c3_witness :
    recC10.category = classify_climb_strava recC10.distance recC10.grade ∧
    recC10.type = (if recC10.category = "Uncategorized" then "uphill" else "climb") :=
  c3_amended.2.1 candC10 0 recC10 (by with_unfolding_all rfl)

/-! ### C4: sharp-turn counting -/

/-- Whether a raw coordinate element is a well-formed pair. -/
def is_pair : PyCoord → Bool
  | .pair _ _ => true
  | .bad => false

/-- The numeric pair carried by a well-formed coordinate element. -/
def coord_pair : PyCoord → ℚ × ℚ
  | .pair a b => (a, b)
  | .bad => (0, 0)

/-- Modelled from the claim's words (C4): count, over the interior points
of the segment's coordinate slice, those whose neighbor angle exceeds 60
degrees and whose local span — the distance between the point two-before
and two-after the evaluated point, within the segment's own index frame —
is under 50 m.  Points without two neighbors on each side (where the
claimed span is undefined) are not counted. -/
def count_sharp_turns_spec (segment_df : List Row) (coords : List (ℚ × ℚ)) : ℕ :=
  (List.range' 1 (coords.length - 2)).countP (fun i =>
    decide (2 ≤ i) && decide (i + 2 < segment_df.length) &&
    angle_gt_60 (coords.getD (i - 1) (0, 0)) (coords.getD i (0, 0))
      (coords.getD (i + 1) (0, 0)) &&
    decide ((segment_df.getD (i + 2) default).distance -
      (segment_df.getD (i - 2) default).distance < 50))

/-- Segment rows for the C4 counterexample, distances 0, 10, 30, 45, 100. -/
def rows4 : List Row :=
  [test_row 0 0, test_row 10 0, test_row 30 0, test_row 45 0, test_row 100 0]

/-- Coordinates for the C4 counterexample: a 53-degree bend at index 1, a
90-degree turn at index 2, and a reversal-free tail. -/
def coords4 : List PyCoord :=
  [.pair 2 1, .pair 0 0, .pair 2 (-1), .pair 3 1, .pair 4 3]

/-- The same coordinates as numeric pairs, for the spec-worded count. -/
def coords4p : List (ℚ × ℚ) := [(2, 1), (0, 0), (2, -1), (3, 1), (4, 3)]

/-- C4, counterexample: the code counts the 90-degree turn at index 2
because the span it measures is `d[3] - d[1] = 35 < 50` (immediate
neighbors), while under the claim's two-before/two-after span
(`d[4] - d[0] = 100`) no point qualifies. -/
theorem c4_counterexample :
    count_sharp_turns rows4 (some coords4) = .ok 1 ∧
    count_sharp_turns_spec rows4 coords4p = 0 := by
  constructor
  · with_unfolding_all decide
  · with_unfolding_all decide

theorem calculate_angle_gt_60_pair (p q r : PyCoord) (hp : is_pair p = true)
    (hq : is_pair q = true) (hr : is_pair r = true) :
    calculate_angle_gt_60 p q r =
      .ok (angle_gt_60 (coord_pair p) (coord_pair q) (coord_pair r)) := by
  cases p <;> cases q <;> cases r <;> simp [is_pair] at hp hq hr ⊢ <;> rfl

theorem sharp_step_count (acc C : ℕ) (lt : Prop) [Decidable lt] (A : Bool)
    (ds : Prop) [Decidable ds] :
    (if lt then (if A = true ∧ ds then acc + 1 else acc) else acc) + C =
      acc + (C + if (decide lt && (A && decide ds)) = true then 1 else 0) := by
  by_cases hl : lt <;> by_cases hA : A = true <;> by_cases hd : ds <;>
    simp [hl, hA, hd] <;> omega

theorem sharp_turns_fold_eq (seg : List Row) (coords : List PyCoord) :
    ∀ (idxs : List ℕ) (acc : ℕ),
    (∀ i ∈ idxs, is_pair (coords.getD (i - 1) .bad) = true ∧
      is_pair (coords.getD i .bad) = true ∧ is_pair (coords.getD (i + 1) .bad) = true) →
    sharp_turns_fold seg coords idxs acc =
      .ok (acc + idxs.countP (fun i =>
        decide (i < seg.length - 1) &&
        (angle_gt_60 (coord_pair (coords.getD (i - 1) .bad))
          (coord_pair (coords.getD i .bad)) (coord_pair (coords.getD (i + 1) .bad)) &&
        decide ((seg.getD (i + 1) default).distance -
          (seg.getD (i - 1) default).distance < 50)))) := by
  intro idxs
  induction idxs with
  | nil => intro acc _; simp [sharp_turns_fold]
  | cons i idxs ih =>
      intro acc h
      obtain ⟨h1, h2, h3⟩ := h i (List.mem_cons_self i idxs)
      rw [sharp_turns_fold, calculate_angle_gt_60_pair _ _ _ h1 h2 h3]
      dsimp only
      rw [ih _ (fun j hj => h j (List.mem_cons_of_mem i hj))]
      rw [List.countP_cons]
      congr 1
      exact sharp_step_count acc _ _ _ _

theorem take_getD (l : List PyCoord) (n j : ℕ) (h : j < n) :
    (l.take n).getD j .bad = l.getD j .bad := by
  rw [List.getD_eq_getElem?_getD, List.getD_eq_getElem?_getD, List.getElem?_take,
    if_pos h]

theorem all_pair_getD (cl : List PyCoord) (hgood : cl.all is_pair = true) (j : ℕ)
    (hj : j < cl.length) : is_pair (cl.getD j .bad) = true := by
  rw [List.getD_eq_getElem?_getD, List.getElem?_eq_getElem hj]
  exact List.all_eq_true.mp hgood _ (List.getElem_mem hj)

set_option maxRecDepth 8000 in
/-- C4 (amended): for a segment of at least 3 points and at least as many
well-formed coordinates, the counted points are exactly the interior
indices `i` of the first `len(segment)` coordinates of the *route* (the
slice always starts at position 0, because the candidate frame is
re-indexed) whose neighbor angle exceeds 60 degrees and whose span —
measured between the *immediate* neighbors, `d[i+1] - d[i-1]` — is under
50 m; in particular a 90-degree turn over a 30 m span is counted and the
same turn over a 200 m span is not. -/
theorem c4_amended :
    (∀ (seg : List Row) (cl : List PyCoord),
      3 ≤ seg.length → seg.length ≤ cl.length → cl.all is_pair = true →
      count_sharp_turns seg (some cl) =
        .ok ((List.range' 1 (seg.length - 2)).countP (fun i =>
          decide (i < seg.length - 1) &&
          (angle_gt_60 (coord_pair (cl.getD (i - 1) .bad)) (coord_pair (cl.getD i .bad))
            (coord_pair (cl.getD (i + 1) .bad)) &&
          decide ((seg.getD (i + 1) default).distance -
            (seg.getD (i - 1) default).distance < 50))))) ∧
    count_sharp_turns [test_row 0 0, test_row 15 0, test_row 30 0]
      (some [.pair 0 0, .pair 1 0, .pair 1 1]) = .ok 1 ∧
    count_sharp_turns [test_row 0 0, test_row 100 0, test_row 200 0]
      (some [.pair 0 0, .pair 1 0, .pair 1 1]) = .ok 0 := by
  refine ⟨?_, by with_unfolding_all decide, by with_unfolding_all decide⟩
  intro seg cl h3 hlen hgood
  have hclne : ¬(cl.length = 0 ∨ seg.length < 3) := by omega
  have hidx : ¬(cl.length ≤ seg.length - 1 ∨ cl.length ≤ 0) := by omega
  rw [count_sharp_turns, if_neg hclne, if_neg hidx]
  dsimp only
  have he : seg.length - 1 + 1 = seg.length := by omega
  rw [he]
  have hlt : (cl.take seg.length).length = seg.length := by
    rw [List.length_take]
    omega
  rw [hlt]
  rw [sharp_turns_fold_eq seg (cl.take seg.length) _ 0 ?side]
  case side =>
    intro i hi
    rw [List.mem_range'] at hi
    obtain ⟨k, hk, rfl⟩ := hi
    refine ⟨?_, ?_, ?_⟩ <;>
      · rw [take_getD _ _ _ (by omega)]
        exact all_pair_getD cl hgood _ (by omega)
  rw [Nat.zero_add]
  congr 1
  apply List.countP_congr
  intro i hi
  rw [List.mem_range'] at hi
  obtain ⟨k, hk, rfl⟩ := hi
  rw [take_getD _ _ _ (by omega), take_getD _ _ _ (by omega),
    take_getD _ _ _ (by omega)]

/-- C4, witness: the amended characterization applied to the concrete
counterexample segment and coordinates. -/
theorem c4_witness :
    count_sharp_turns rows4 (some coords4) =
      .ok ((List.range' 1 (rows4.length - 2)).countP (fun i =>
        decide (i < rows4.length - 1) &&
        (angle_gt_60 (coord_pair (coords4.getD (i - 1) .bad))
          (coord_pair (coords4.getD i .bad)) (coord_pair (coords4.getD (i + 1) .bad)) &&
        decide ((rows4.getD (i + 1) default).distance -
          (rows4.getD (i - 1) default).distance < 50)))) :=
  c4_amended.1 rows4 coords4 (by decide) (by decide) (by decide)

/-! ### C9: malformed coordinates -/

/-- The mirrored worked profile: a monotonic 100 m drop over 1000 m,
producing a categorized descent. -/
def alt9 : List ℚ := [100, 90, 80, 70, 60, 50, 40, 30, 20, 10, 0]

/-- Malformed coordinates: a list of elements whose conversion and whose
vector arithmetic both raise. -/
def badCoords9 : List PyCoord := List.replicate 11 PyCoord.bad

/-- The DataFrame built for the descending profile (sign mirror of
`df3`). -/
def df9 : List Row :=
  [⟨100, 0, 0, 0, 0, -25/3⟩, ⟨90, 100, 0, 0, -10, -60/7⟩, ⟨80, 200, 0, 0, -10, -35/4⟩,
   ⟨70, 300, 0, 0, -10, -80/9⟩, ⟨60, 400, 0, 0, -10, -9⟩, ⟨50, 500, 0, 0, -10, -100/11⟩,
   ⟨40, 600, 0, 0, -10, -10⟩, ⟨30, 700, 0, 0, -10, -10⟩, ⟨20, 800, 0, 0, -10, -10⟩,
   ⟨10, 900, 0, 0, -10, -10⟩, ⟨0, 1000, 0, 0, -10, -10⟩]

set_option maxRecDepth 8000 in
theorem coords9_zero : coords_columns alt9.length (some badCoords9) =
    (List.replicate alt9.length 0, List.replicate alt9.length 0) := by
  with_unfolding_all decide

set_option maxRecDepth 8000 in
theorem df9_eq : build_df alt9 dist3 (List.replicate alt9.length 0)
    (List.replicate alt9.length 0) 10 = df9 := by with_unfolding_all decide

set_option maxRecDepth 8000 in
theorem df9_climbs : detect_climbs df9 = [] := by with_unfolding_all rfl

set_option maxRecDepth 8000 in
theorem df9_descents_bad : detect_descents df9 (some badCoords9) = .error () := by
  with_unfolding_all rfl

/-- The descent record produced on the descending profile with no
coordinates. -/
def d9rec : Segment :=
  match validate_descent df9 0 300 20 none with
  | .ok (some r) => r
  | _ => default

set_option maxRecDepth 8000 in
theorem df9_descents_none : detect_descents df9 none = .ok [d9rec] := by
  with_unfolding_all rfl

set_option maxRecDepth 8000 in
theorem df9_fill : fill_gaps df9 [d9rec] = .ok [d9rec] := by with_unfolding_all rfl

set_option maxRecDepth 8000 in
theorem d9rec_type : d9rec.type = "descent" := by with_unfolding_all decide

set_option maxRecDepth 8000 in
theorem d9rec_category : d9rec.category = "Minor Descent" := by
  with_unfolding_all decide

/-- C9: on a profile containing a categorized descent, a malformed
coordinates argument makes `cut_segment` raise (a `TypeError` escapes
from `_calculate_angle`): the extraction `try/except` only zero-fills the
`lat`/`lon` columns, while the raw `coordinates` object is still passed
to `_detect_descents` and indexed during sharp-turn counting.  The same
profile with `coordinates=None` segments fine into one categorized
descent. -/
theorem c9_code_bug :
    cut_segment alt9 dist3 (some badCoords9) 10 = .error () ∧
    cut_segment alt9 dist3 none 10 = .ok [d9rec] ∧
    d9rec.type = "descent" ∧ d9rec.category = "Minor Descent" := by
  refine ⟨?_, ?_, d9rec_type, d9rec_category⟩
  · rw [cut_segment_zero_coords alt9 dist3 (some badCoords9) 10 coords9_zero
      (by decide) (by decide), df9_eq, df9_descents_bad]
  · rw [cut_segment_zero_coords alt9 dist3 none 10 rfl (by decide) (by decide),
      df9_eq, df9_descents_none, df9_climbs]
    dsimp only [List.nil_append]
    have hs : List.insertionSort segLE [d9rec] = [d9rec] := rfl
    rw [hs, df9_fill]

/-! ### C2: the pause-failure slice equals the pre-pause prefix -/

/-- Invariant of the climb scan at loop position `i` (the next index to
process): in the active states the collected points are exactly the rows
`start_idx .. i-1`, and in a pause the recorded pause start lies between
the segment start and the current position. -/
def ClimbInv (i : ℕ) (s : ClimbScan) : Prop :=
  (s.state = "IN_CLIMB" ∨ s.state = "EVALUATING_PAUSE") →
    (s.start_idx < i ∧ s.segment_points.length + s.start_idx = i ∧
     (s.state = "EVALUATING_PAUSE" →
       s.start_idx ≤ s.pause_start_idx ∧ s.pause_start_idx < i))

theorem climb_step_eq (st et mpl mpd minL minG : ℚ) (i : ℕ) (prev cur : Row)
    (s : ClimbScan) (hinv : ClimbInv i s) :
    climb_step st et mpl mpd minL minG i prev cur s =
      climb_step_stable st et mpl mpd minL minG i prev cur s := by
  by_cases h1 : s.state = "SEARCHING"
  · simp only [climb_step, climb_step_stable, if_pos h1]
  · by_cases h2 : s.state = "IN_CLIMB"
    · simp only [climb_step, climb_step_stable, if_neg h1, if_pos h2]
    · by_cases h3 : s.state = "EVALUATING_PAUSE"
      · obtain ⟨hsi, hlen, hp⟩ := hinv (Or.inr h3)
        obtain ⟨hp1, hp2⟩ := hp h3
        have htake : (s.segment_points ++ [cur]).take
            ((s.segment_points ++ [cur]).length - (i - s.pause_start_idx)) =
            (s.segment_points ++ [cur]).take (s.pause_start_idx + 1 - s.start_idx) := by
          congr 1
          rw [List.length_append]
          simp only [List.length_cons, List.length_nil]
          omega
        simp only [climb_step, climb_step_stable, if_neg h1, if_neg h2, if_pos h3, htake]
      · simp only [climb_step, climb_step_stable, if_neg h1, if_neg h2, if_neg h3]

theorem climb_step_inv (st et mpl mpd minL minG : ℚ) (i : ℕ) (prev cur : Row)
    (s : ClimbScan) (hi : 1 ≤ i) (hinv : ClimbInv i s) :
    ClimbInv (i + 1) (climb_step st et mpl mpd minL minG i prev cur s) := by
  by_cases h1 : s.state = "SEARCHING"
  · simp only [climb_step, if_pos h1]
    split
    · intro _
      dsimp only
      refine ⟨by omega, ?_, fun h => absurd h (by decide)⟩
      simp only [List.length_cons, List.length_nil]
      omega
    · intro h
      rw [h1] at h
      rcases h with h | h <;> exact absurd h (by decide)
  · by_cases h2 : s.state = "IN_CLIMB"
    · obtain ⟨hsi, hlen, -⟩ := hinv (Or.inl h2)
      simp only [climb_step, if_neg h1, if_pos h2]
      split
      · intro _
        dsimp only
        refine ⟨by omega, ?_, ?_⟩
        · rw [List.length_append]
          simp only [List.length_cons, List.length_nil]
          omega
        · intro h
          rw [h2] at h
          exact absurd h (by decide)
      · intro _
        dsimp only
        refine ⟨by omega, ?_, fun _ => ⟨by omega, by omega⟩⟩
        rw [List.length_append]
        simp only [List.length_cons, List.length_nil]
        omega
    · by_cases h3 : s.state = "EVALUATING_PAUSE"
      · obtain ⟨hsi, hlen, hp⟩ := hinv (Or.inr h3)
        obtain ⟨hp1, hp2⟩ := hp h3
        simp only [climb_step, if_neg h1, if_neg h2, if_pos h3]
        set pd := if cur.ele - prev.ele < 0 then s.pause_descent + |cur.ele - prev.ele|
          else s.pause_descent with hpd
        split
        · intro _
          dsimp only
          refine ⟨by omega, ?_, fun h => absurd h (by decide)⟩
          rw [List.length_append]
          simp only [List.length_cons, List.length_nil]
          omega
        · split
          · intro h
            dsimp only at h
            rcases h with h | h <;> exact absurd h (by decide)
          · intro _
            dsimp only
            refine ⟨by omega, ?_, fun _ => ⟨by omega, by omega⟩⟩
            rw [List.length_append]
            simp only [List.length_cons, List.length_nil]
            omega
      · simp only [climb_step, if_neg h1, if_neg h2, if_neg h3]
        intro h
        rcases h with h | h
        · exact absurd h h2
        · exact absurd h h3

theorem detect_climbs_aux_eq (st et mpl mpd minL minG : ℚ) :
    ∀ (rest : List Row) (i : ℕ) (prev : Row) (s : ClimbScan), 1 ≤ i → ClimbInv i s →
    detect_climbs_aux st et mpl mpd minL minG i prev rest s =
      detect_climbs_aux_stable st et mpl mpd minL minG i prev rest s := by
  intro rest
  induction rest with
  | nil => intro i prev s _ _; rfl
  | cons cur rest ih =>
      intro i prev s hi hinv
      have heq := climb_step_eq st et mpl mpd minL minG i prev cur s hinv
      have hinv' := climb_step_inv st et mpl mpd minL minG i prev cur s hi hinv
      rw [detect_climbs_aux, detect_climbs_aux_stable, heq]
      exact ih (i + 1) cur _ (by omega) (heq ▸ hinv')

/-- Invariant of the descent scan, mirroring `ClimbInv`. -/
def DescentInv (i : ℕ) (s : DescentScan) : Prop :=
  (s.state = "IN_DESCENT" ∨ s.state = "EVALUATING_PAUSE") →
    (s.start_idx < i ∧ s.segment_points.length + s.start_idx = i ∧
     (s.state = "EVALUATING_PAUSE" →
       s.start_idx ≤ s.pause_start_idx ∧ s.pause_start_idx < i))

theorem descent_step_eq (st et mpl mpa minL minLoss : ℚ)
    (coords : Option (List PyCoord)) (i : ℕ) (prev cur : Row) (s : DescentScan)
    (hinv : DescentInv i s) :
    descent_step st et mpl mpa minL minLoss coords i prev cur s =
      descent_step_stable st et mpl mpa minL minLoss coords i prev cur s := by
  by_cases h1 : s.state = "SEARCHING"
  · simp only [descent_step, descent_step_stable, if_pos h1]
  · by_cases h2 : s.state = "IN_DESCENT"
    · simp only [descent_step, descent_step_stable, if_neg h1, if_pos h2]
    · by_cases h3 : s.state = "EVALUATING_PAUSE"
      · obtain ⟨hsi, hlen, hp⟩ := hinv (Or.inr h3)
        obtain ⟨hp1, hp2⟩ := hp h3
        have htake : (s.segment_points ++ [cur]).take
            ((s.segment_points ++ [cur]).length - (i - s.pause_start_idx)) =
            (s.segment_points ++ [cur]).take (s.pause_start_idx + 1 - s.start_idx) := by
          congr 1
          rw [List.length_append]
          simp only [List.length_cons, List.length_nil]
          omega
        simp only [descent_step, descent_step_stable, if_neg h1, if_neg h2, if_pos h3,
          htake]
      · simp only [descent_step, descent_step_stable, if_neg h1, if_neg h2, if_neg h3]

theorem descent_step_inv (st et mpl mpa minL minLoss : ℚ)
    (coords : Option (List PyCoord)) (i : ℕ) (prev cur : Row) (s s' : DescentScan)
    (hi : 1 ≤ i) (hinv : DescentInv i s)
    (hstep : descent_step st et mpl mpa minL minLoss coords i prev cur s = .ok s') :
    DescentInv (i + 1) s' := by
  by_cases h1 : s.state = "SEARCHING"
  · rw [descent_step, if_pos h1] at hstep
    split at hstep
    · rw [Except.ok.injEq] at hstep
      subst hstep
      intro _
      dsimp only
      refine ⟨by omega, ?_, fun h => absurd h (by decide)⟩
      simp only [List.length_cons, List.length_nil]
      omega
    · rw [Except.ok.injEq] at hstep
      subst hstep
      intro h
      rw [h1] at h
      rcases h with h | h <;> exact absurd h (by decide)
  · by_cases h2 : s.state = "IN_DESCENT"
    · obtain ⟨hsi, hlen, -⟩ := hinv (Or.inl h2)
      rw [descent_step, if_neg h1, if_pos h2] at hstep
      split at hstep
      · rw [Except.ok.injEq] at hstep
        subst hstep
        intro _
        dsimp only
        refine ⟨by omega, ?_, ?_⟩
        · rw [List.length_append]
          simp only [List.length_cons, List.length_nil]
          omega
        · intro h
          rw [h2] at h
          exact absurd h (by decide)
      · rw [Except.ok.injEq] at hstep
        subst hstep
        intro _
        dsimp only
        refine ⟨by omega, ?_, fun _ => ⟨by omega, by omega⟩⟩
        rw [List.length_append]
        simp only [List.length_cons, List.length_nil]
        omega
    · by_cases h3 : s.state = "EVALUATING_PAUSE"
      · obtain ⟨hsi, hlen, hp⟩ := hinv (Or.inr h3)
        obtain ⟨hp1, hp2⟩ := hp h3
        rw [descent_step, if_neg h1, if_neg h2, if_pos h3] at hstep
        dsimp only at hstep
        set pa := if 0 < cur.ele - prev.ele then s.pause_ascent + (cur.ele - prev.ele)
          else s.pause_ascent with hpa
        split at hstep
        · rw [Except.ok.injEq] at hstep
          subst hstep
          intro _
          dsimp only
          refine ⟨by omega, ?_, fun h => absurd h (by decide)⟩
          rw [List.length_append]
          simp only [List.length_cons, List.length_nil]
          omega
        · split at hstep
          · split at hstep
            · exact absurd hstep (by simp)
            · rw [Except.ok.injEq] at hstep
              subst hstep
              intro h
              dsimp only at h
              rcases h with h | h <;> exact absurd h (by decide)
          · rw [Except.ok.injEq] at hstep
            subst hstep
            intro _
            dsimp only
            refine ⟨by omega, ?_, fun _ => ⟨by omega, by omega⟩⟩
            rw [List.length_append]
            simp only [List.length_cons, List.length_nil]
            omega
      · rw [descent_step, if_neg h1, if_neg h2, if_neg h3] at hstep
        rw [Except.ok.injEq] at hstep
        subst hstep
        intro h
        rcases h with h | h
        · exact absurd h h2
        · exact absurd h h3

theorem detect_descents_aux_eq (st et mpl mpa minL minLoss : ℚ)
    (coords : Option (List PyCoord)) :
    ∀ (rest : List Row) (i : ℕ) (prev : Row) (s : DescentScan), 1 ≤ i → DescentInv i s →
    detect_descents_aux st et mpl mpa minL minLoss coords i prev rest s =
      detect_descents_aux_stable st et mpl mpa minL minLoss coords i prev rest s := by
  intro rest
  induction rest with
  | nil => intro i prev s _ _; rfl
  | cons cur rest ih =>
      intro i prev s hi hinv
      have heq := descent_step_eq st et mpl mpa minL minLoss coords i prev cur s hinv
      rw [detect_descents_aux, detect_descents_aux_stable, heq]
      cases hstep : descent_step_stable st et mpl mpa minL minLoss coords i prev cur s with
      | error e => rfl
      | ok s' =>
          exact ih (i + 1) cur s' (by omega)
            (descent_step_inv st et mpl mpa minL minLoss coords i prev cur s s' hi hinv
              (heq.trans hstep))

/-- C2: in both detectors, when a pause fails, the candidate passed to
validation is exactly the points collected before the pause began (rows
`start_idx .. pause_start_idx`): the literal negative-offset slice
`segment_points[:-(i - pause_start_idx)]` is extensionally equal, over
whole runs and for pauses of any number of point-evaluation cycles, to
the variant (`detect_climbs_stable`, `detect_descents_stable`) that keeps
exactly the pre-pause prefix, discards the pause points, and resets to
SEARCHING. -/
theorem c2_pause_exit (df : List Row) (st et mpl mpd minL minG : ℚ)
    (coords : Option (List PyCoord)) :
    detect_climbs df st et mpl mpd minL minG =
      detect_climbs_stable df st et mpl mpd minL minG ∧
    detect_descents df coords st et mpl mpd minL minG =
      detect_descents_stable df coords st et mpl mpd minL minG := by
  constructor
  · cases df with
    | nil => rfl
    | cons r0 rest =>
        rw [detect_climbs, detect_climbs_stable,
          detect_climbs_aux_eq st et mpl mpd minL minG rest 1 r0 climbInit (by omega)
            (by intro h; rcases h with h | h <;> simp [climbInit] at h)]
  · cases df with
    | nil => rfl
    | cons r0 rest =>
        rw [detect_descents, detect_descents_stable,
          detect_descents_aux_eq st et mpl mpd minL minG coords rest 1 r0 descentInit
            (by omega)
            (by intro h; rcases h with h | h <;> simp [descentInit] at h)]

/-! ### C1: coverage, gaps and ordering of the final segment list -/

/-- Bool check: every index of `[0, n)` lies in some segment's inclusive
`[start_idx, end_idx]` range. -/
def coversAllIdx (out : List Segment) (n : ℕ) : Bool :=
  (List.range n).all (fun j => out.any (fun s => decide (s.start_idx ≤ j) &&
    decide (j ≤ s.end_idx)))

/-- Bool check: adjacent segments share no index at all (the claim's
"no index overlap" for inclusive ranges). -/
def adjNoIdxOverlap : List Segment → Bool
  | a :: b :: t => decide (a.end_idx < b.start_idx) && adjNoIdxOverlap (b :: t)
  | _ => true

/-- C1 counterexample profile: a 30 m lead-in point, a climb too small to
be categorized, and a long flat tail; evaluated with `smooth_window = 1`
so the smoothed grade equals the raw grade. -/
def altC1 : List ℚ := [0, 0, 10, 20, 30, 40, 40, 40, 40, 40, 40]

/-- Distances of the C1 counterexample profile. -/
def distC1 : List ℚ := [0, 30, 130, 230, 330, 430, 530, 630, 730, 830, 930]

/-- The DataFrame built for the C1 profile (window 1: `plot_grade` equals
`grade`). -/
def dfC1 : List Row :=
  [⟨0, 0, 0, 0, 0, 0⟩, ⟨0, 30, 0, 0, 0, 0⟩, ⟨10, 130, 0, 0, 10, 10⟩,
   ⟨20, 230, 0, 0, 10, 10⟩, ⟨30, 330, 0, 0, 10, 10⟩, ⟨40, 430, 0, 0, 10, 10⟩,
   ⟨40, 530, 0, 0, 0, 0⟩, ⟨40, 630, 0, 0, 0, 0⟩, ⟨40, 730, 0, 0, 0, 0⟩,
   ⟨40, 830, 0, 0, 0, 0⟩, ⟨40, 930, 0, 0, 0, 0⟩]

/-- Rows 1..5 of `dfC1`: the candidate kept when the pause fails. -/
def dfC1sub : List Row :=
  [⟨0, 30, 0, 0, 0, 0⟩, ⟨10, 130, 0, 0, 10, 10⟩, ⟨20, 230, 0, 0, 10, 10⟩,
   ⟨30, 330, 0, 0, 10, 10⟩, ⟨40, 430, 0, 0, 10, 10⟩]

set_option maxRecDepth 8000 in
theorem dfC1_eq : build_df altC1 distC1 (List.replicate altC1.length 0)
    (List.replicate altC1.length 0) 1 = dfC1 := by with_unfolding_all decide

/-- The (uncategorized) climb candidate detected on the C1 profile. -/
def cC1 : Segment := (validate_climb dfC1sub 1 300 20).getD default

/-- The trailing filler segment on the C1 profile. -/
def fillerC1 : Segment :=
  create_flat_segment dfC1 5 10 (qmean (plot_slice dfC1 5 10))

set_option maxRecDepth 8000 in
theorem dfC1_climbs : detect_climbs dfC1 = [cC1] := by with_unfolding_all rfl

set_option maxRecDepth 8000 in
theorem dfC1_descents : detect_descents dfC1 none = .ok [] := by with_unfolding_all rfl

set_option maxRecDepth 8000 in
theorem dfC1_fill : fill_gaps dfC1 [cC1] = .ok [cC1, fillerC1] := by
  with_unfolding_all rfl

/-- Full evaluation of `cut_segment` on the C1 profile. -/
theorem cut_segment_altC1 : cut_segment altC1 distC1 none 1 = .ok [cC1, fillerC1] := by
  rw [cut_segment_zero_coords altC1 distC1 none 1 rfl (by decide) (by decide), dfC1_eq,
    dfC1_descents, dfC1_climbs]
  dsimp only [List.cons_append, List.nil_append]
  have hs : List.insertionSort segLE [cC1] = [cC1] := rfl
  rw [hs, dfC1_fill]

set_option maxRecDepth 8000 in
/-- C1, counterexample: on the C1 profile the output is a candidate with
index range `[1, 5]` followed by a filler with index range `[5, 10]`:
index 0 is covered by no segment (the 30 m leading gap is below the 50 m
threshold and is silently dropped), and the two adjacent segments share
index 5 — refuting both "no gap" and "no index overlap". -/
theorem c1_counterexample :
    cut_segment altC1 distC1 none 1 = .ok [cC1, fillerC1] ∧
    altC1.length = 11 ∧
    cC1.start_idx = 1 ∧ cC1.end_idx = 5 ∧
    fillerC1.start_idx = 5 ∧ fillerC1.end_idx = 10 ∧
    coversAllIdx [cC1, fillerC1] 11 = false ∧
    adjNoIdxOverlap [cC1, fillerC1] = false := by
  refine ⟨cut_segment_altC1, by decide, ?_, ?_, ?_, ?_, ?_, ?_⟩ <;>
    with_unfolding_all decide

/-! ### C1 (amended): structural properties of the final list -/

/-- Candidate records satisfy the minimum length and have
`distance = end_distance - start_distance`. -/
theorem validate_climb_record (seg : List Row) (start_idx : ℕ) (minL minG : ℚ)
    (r : Segment) (h : validate_climb seg start_idx minL minG = some r) :
    minL ≤ r.distance ∧ r.distance = r.end_distance - r.start_distance := by
  by_cases h2 : seg.length < 2
  · rw [validate_climb, if_pos h2] at h
    exact absurd h (by simp)
  · by_cases h3 : seg_length seg < minL ∨ seg_gain seg < minG
    · simp only [validate_climb, if_neg h2, if_pos h3] at h
      exact absurd h (by simp)
    · simp only [validate_climb, if_neg h2, if_neg h3] at h
      rw [Option.some.injEq] at h
      subst h
      exact ⟨le_of_not_lt (fun hc => h3 (Or.inl hc)), rfl⟩

/-- The descent analogue of `validate_climb_record`. -/
theorem validate_descent_record (seg : List Row) (start_idx : ℕ) (minL minLoss : ℚ)
    (coords : Option (List PyCoord)) (r : Segment)
    (h : validate_descent seg start_idx minL minLoss coords = .ok (some r)) :
    minL ≤ r.distance ∧ r.distance = r.end_distance - r.start_distance := by
  by_cases h2 : seg.length < 2
  · rw [validate_descent, if_pos h2] at h
    exact absurd h (by simp)
  · by_cases h3 : seg_length seg < minL ∨ seg_loss seg < minLoss
    · simp only [validate_descent, if_neg h2, if_pos h3] at h
      exact absurd h (by simp)
    · simp only [validate_descent, if_neg h2, if_neg h3] at h
      split at h
      · exact absurd h (by simp)
      · rw [Except.ok.injEq, Option.some.injEq] at h
        subst h
        exact ⟨le_of_not_lt (fun hc => h3 (Or.inl hc)), rfl⟩

theorem mem_of_getLast? {α : Type _} : ∀ {l : List α} {a : α}, l.getLast? = some a → a ∈ l
  | [], a, h => by simp at h
  | [x], a, h => by
      simp only [List.getLast?_singleton, Option.some.injEq] at h
      subst h
      exact List.mem_singleton_self x
  | x :: y :: t, a, h => by
      rw [List.getLast?_cons_cons] at h
      exact List.mem_cons_of_mem x (mem_of_getLast? h)

theorem first_idx_ge_spec (df : List Row) (v : ℚ) (j : ℕ)
    (h : first_idx_ge df v = .ok j) : v ≤ dist_at df j := by
  rw [first_idx_ge] at h
  cases hfind : (List.range df.length).find? (fun k => decide (v ≤ dist_at df k)) with
  | none => rw [hfind] at h; exact absurd h (by simp)
  | some k =>
      rw [hfind, Except.ok.injEq] at h
      subst h
      have hp := List.find?_some hfind
      simp only [decide_eq_true_eq] at hp
      exact hp

theorem last_idx_le_spec (df : List Row) (v : ℚ) (j : ℕ)
    (h : last_idx_le df v = .ok j) : dist_at df j ≤ v := by
  rw [last_idx_le] at h
  cases hfind : ((List.range df.length).filter (fun k => decide (dist_at df k ≤ v))).getLast? with
  | none => rw [hfind] at h; exact absurd h (by simp)
  | some k =>
      rw [hfind, Except.ok.injEq] at h
      subst h
      have hmem := mem_of_getLast? hfind
      rw [List.mem_filter] at hmem
      exact of_decide_eq_true hmem.2

/-- The property carried through the detectors: candidates meet the
minimum length and have consistent distances. -/
def GoodCand (minL : ℚ) (r : Segment) : Prop :=
  minL ≤ r.distance ∧ r.distance = r.end_distance - r.start_distance

theorem validate_and_append_climb_mem (climbs : List Segment) (seg : List Row)
    (start_idx : ℕ) (minL minG : ℚ)
    (hold : ∀ r ∈ climbs, GoodCand minL r) :
    ∀ r ∈ validate_and_append_climb climbs seg start_idx minL minG, GoodCand minL r := by
  intro r hr
  cases hv : validate_climb seg start_idx minL minG with
  | none =>
      rw [validate_and_append_climb, hv] at hr
      exact hold r hr
  | some r' =>
      rw [validate_and_append_climb, hv] at hr
      rw [List.mem_append] at hr
      rcases hr with hr | hr
      · exact hold r hr
      · rw [List.mem_singleton] at hr
        subst hr
        exact validate_climb_record _ _ _ _ _ hv

theorem climb_step_climbs_mem (st et mpl mpd minL minG : ℚ) (i : ℕ) (prev cur : Row)
    (s : ClimbScan) (hold : ∀ r ∈ s.climbs, GoodCand minL r) :
    ∀ r ∈ (climb_step st et mpl mpd minL minG i prev cur s).climbs, GoodCand minL r := by
  by_cases h1 : s.state = "SEARCHING"
  · simp only [climb_step, if_pos h1]
    split
    · exact hold
    · exact hold
  · by_cases h2 : s.state = "IN_CLIMB"
    · simp only [climb_step, if_neg h1, if_pos h2]
      split
      · exact hold
      · exact hold
    · by_cases h3 : s.state = "EVALUATING_PAUSE"
      · simp only [climb_step, if_neg h1, if_neg h2, if_pos h3]
        set pd := if cur.ele - prev.ele < 0 then s.pause_descent + |cur.ele - prev.ele|
          else s.pause_descent with hpd
        split
        · exact hold
        · split
          · exact validate_and_append_climb_mem _ _ _ _ _ hold
          · exact hold
      · simp only [climb_step, if_neg h1, if_neg h2, if_neg h3]
        exact hold

theorem detect_climbs_aux_mem (st et mpl mpd minL minG : ℚ) :
    ∀ (rest : List Row) (i : ℕ) (prev : Row) (s : ClimbScan),
    (∀ r ∈ s.climbs, GoodCand minL r) →
    ∀ r ∈ (detect_climbs_aux st et mpl mpd minL minG i prev rest s).climbs,
      GoodCand minL r := by
  intro rest
  induction rest with
  | nil => intro i prev s h; exact h
  | cons cur rest ih =>
      intro i prev s h
      rw [detect_climbs_aux]
      exact ih (i + 1) cur _ (climb_step_climbs_mem st et mpl mpd minL minG i prev cur s h)

theorem detect_climbs_mem (df : List Row) (st et mpl mpd minL minG : ℚ) (r : Segment)
    (hr : r ∈ detect_climbs df st et mpl mpd minL minG) : GoodCand minL r := by
  cases df with
  | nil => simp [detect_climbs] at hr
  | cons r0 rest =>
      rw [detect_climbs, climb_finalize] at hr
      have hinit : ∀ x ∈ climbInit.climbs, GoodCand minL x := by
        intro x hx
        simp [climbInit] at hx
      split at hr
      · exact validate_and_append_climb_mem _ _ _ _ _
          (detect_climbs_aux_mem st et mpl mpd minL minG rest 1 r0 climbInit hinit) r hr
      · exact detect_climbs_aux_mem st et mpl mpd minL minG rest 1 r0 climbInit hinit r hr

theorem validate_and_append_descent_mem (descents : List Segment) (seg : List Row)
    (start_idx : ℕ) (minL minLoss : ℚ) (coords : Option (List PyCoord))
    (l : List Segment)
    (h : validate_and_append_descent descents seg start_idx minL minLoss coords = .ok l)
    (hold : ∀ r ∈ descents, GoodCand minL r) :
    ∀ r ∈ l, GoodCand minL r := by
  cases hv : validate_descent seg start_idx minL minLoss coords with
  | error e =>
      rw [validate_and_append_descent, hv] at h
      exact absurd h (by simp)
  | ok o =>
      cases o with
      | none =>
          rw [validate_and_append_descent, hv] at h
          rw [Except.ok.injEq] at h
          subst h
          exact hold
      | some r' =>
          rw [validate_and_append_descent, hv] at h
          rw [Except.ok.injEq] at h
          subst h
          intro r hr
          rw [List.mem_append] at hr
          rcases hr with hr | hr
          · exact hold r hr
          · rw [List.mem_singleton] at hr
            subst hr
            exact validate_descent_record _ _ _ _ _ _ hv

theorem descent_step_descents_mem (st et mpl mpa minL minLoss : ℚ)
    (coords : Option (List PyCoord)) (i : ℕ) (prev cur : Row) (s s' : DescentScan)
    (hstep : descent_step st et mpl mpa minL minLoss coords i prev cur s = .ok s')
    (hold : ∀ r ∈ s.descents, GoodCand minL r) :
    ∀ r ∈ s'.descents, GoodCand minL r := by
  by_cases h1 : s.state = "SEARCHING"
  · rw [descent_step, if_pos h1] at hstep
    split at hstep <;>
      · rw [Except.ok.injEq] at hstep
        subst hstep
        exact hold
  · by_cases h2 : s.state = "IN_DESCENT"
    · rw [descent_step, if_neg h1, if_pos h2] at hstep
      split at hstep <;>
        · rw [Except.ok.injEq] at hstep
          subst hstep
          exact hold
    · by_cases h3 : s.state = "EVALUATING_PAUSE"
      · rw [descent_step, if_neg h1, if_neg h2, if_pos h3] at hstep
        dsimp only at hstep
        set pa := if 0 < cur.ele - prev.ele then s.pause_ascent + (cur.ele - prev.ele)
          else s.pause_ascent with hpa
        split at hstep
        · rw [Except.ok.injEq] at hstep
          subst hstep
          exact hold
        · split at hstep
          · split at hstep
            · exact absurd hstep (by simp)
            · rename_i l heq
              rw [Except.ok.injEq] at hstep
              subst hstep
              exact validate_and_append_descent_mem _ _ _ _ _ _ _ heq hold
          · rw [Except.ok.injEq] at hstep
            subst hstep
            exact hold
      · rw [descent_step, if_neg h1, if_neg h2, if_neg h3] at hstep
        rw [Except.ok.injEq] at hstep
        subst hstep
        exact hold

theorem detect_descents_aux_mem (st et mpl mpa minL minLoss : ℚ)
    (coords : Option (List PyCoord)) :
    ∀ (rest : List Row) (i : ℕ) (prev : Row) (s : DescentScan) (s' : DescentScan),
    detect_descents_aux st et mpl mpa minL minLoss coords i prev rest s = .ok s' →
    (∀ r ∈ s.descents, GoodCand minL r) →
    ∀ r ∈ s'.descents, GoodCand minL r := by
  intro rest
  induction rest with
  | nil =>
      intro i prev s s' h hold
      rw [detect_descents_aux, Except.ok.injEq] at h
      subst h
      exact hold
  | cons cur rest ih =>
      intro i prev s s' h hold
      rw [detect_descents_aux] at h
      cases hstep : descent_step st et mpl mpa minL minLoss coords i prev cur s with
      | error e => rw [hstep] at h; exact absurd h (by simp)
      | ok s1 =>
          rw [hstep] at h
          exact ih (i + 1) cur s1 s' h
            (descent_step_descents_mem st et mpl mpa minL minLoss coords i prev cur s s1
              hstep hold)

theorem detect_descents_mem (df : List Row) (coords : Option (List PyCoord))
    (st et mpl mpa minL minLoss : ℚ) (l : List Segment)
    (h : detect_descents df coords st et mpl mpa minL minLoss = .ok l) (r : Segment)
    (hr : r ∈ l) : GoodCand minL r := by
  cases df with
  | nil =>
      rw [detect_descents, Except.ok.injEq] at h
      subst h
      simp at hr
  | cons r0 rest =>
      rw [detect_descents] at h
      cases haux : detect_descents_aux st et mpl mpa minL minLoss coords 1 r0 rest
          descentInit with
      | error e => rw [haux] at h; exact absurd h (by simp)
      | ok s1 =>
          rw [haux] at h
          dsimp only at h
          have hs1 : ∀ x ∈ s1.descents, GoodCand minL x :=
            detect_descents_aux_mem st et mpl mpa minL minLoss coords rest 1 r0
              descentInit s1 haux (by intro x hx; simp [descentInit] at hx)
          unfold descent_finalize at h
          by_cases hcond : (s1.state = "IN_DESCENT" ∨ s1.state = "EVALUATING_PAUSE") ∧
            s1.segment_points ≠ []
          · rw [if_pos hcond] at h
            exact validate_and_append_descent_mem _ _ _ _ _ _ _ h hs1 r hr
          · rw [if_neg hcond] at h
            rw [Except.ok.injEq] at h
            subst h
            exact hs1 r hr

/-- Start distance of the first candidate, or the carried `last_end_dist`
when no candidate remains: a lower bound for everything `_fill_gaps`
emits from this point on. -/
def head_start : List Segment → ℚ → ℚ
  | [], d => d
  | s :: _, _ => s.start_distance

/-- Assembling `seg :: tail` once the recursive facts about `tail` are
known: the output stays chained, its members are candidates or long
fillers, and start distances stay above the carried bound. -/
theorem fill_cons_core (seg : Segment) (rest tail : List Segment) (lastEnd : ℚ)
    (hc : List.Chain' segLE tail)
    (hm : ∀ x ∈ tail, x ∈ rest ∨ 50 < x.distance)
    (hlb : ∀ x ∈ tail, min seg.end_distance (head_start rest seg.end_distance) ≤
      x.start_distance)
    (hseg_le : ∀ b ∈ rest, segLE seg b)
    (hseg_lt : seg.start_distance < seg.end_distance) :
    List.Chain' segLE (seg :: tail) ∧
      (∀ x ∈ seg :: tail, x ∈ seg :: rest ∨ 50 < x.distance) ∧
      (∀ x ∈ seg :: tail, min lastEnd (head_start (seg :: rest) lastEnd) ≤
        x.start_distance) := by
  have hstart_le : ∀ x ∈ tail, seg.start_distance ≤ x.start_distance := by
    intro x hx
    refine le_trans (le_min hseg_lt.le ?_) (hlb x hx)
    cases rest with
    | nil => exact hseg_lt.le
    | cons b bs => exact hseg_le b (List.mem_cons_self b bs)
  refine ⟨?_, ?_, ?_⟩
  · rw [List.chain'_cons']
    exact ⟨fun y hy => hstart_le y (List.mem_of_mem_head? hy), hc⟩
  · intro x hx
    rcases List.mem_cons.mp hx with hx | hx
    · exact Or.inl (hx ▸ List.mem_cons_self seg rest)
    · rcases hm x hx with h | h
      · exact Or.inl (List.mem_cons_of_mem seg h)
      · exact Or.inr h
  · intro x hx
    have hmin : min lastEnd (head_start (seg :: rest) lastEnd) ≤ seg.start_distance :=
      min_le_right _ _
    rcases List.mem_cons.mp hx with hx | hx
    · exact hx ▸ hmin
    · exact le_trans hmin (hstart_le x hx)

/-- Structural invariant of the `_fill_gaps` loop: whenever the recursion
over the sorted candidates returns normally, the emitted list is chained
by `start_distance`, every element is a surviving candidate or a filler
longer than 50 m, and all start distances sit above the carried bound. -/
theorem fill_gaps_aux_props (df : List Row) :
    ∀ (segs : List Segment) (lastEnd : ℚ) (out : List Segment),
    fill_gaps_aux df lastEnd segs = .ok out →
    List.Sorted segLE segs →
    (∀ s ∈ segs, s.start_distance < s.end_distance) →
    List.Chain' segLE out ∧ (∀ x ∈ out, x ∈ segs ∨ 50 < x.distance) ∧
      (∀ x ∈ out, min lastEnd (head_start segs lastEnd) ≤ x.start_distance) := by
  intro segs
  induction segs with
  | nil =>
      intro lastEnd out h _ _
      by_cases hcond : lastEnd < ((df.getLast?).map Row.distance).getD 0 - 50
      · simp only [fill_gaps_aux, if_pos hcond] at h
        cases hfi : first_idx_ge df lastEnd with
        | error e => rw [hfi] at h; exact absurd h (by simp)
        | ok gs =>
            rw [hfi] at h
            dsimp only at h
            by_cases hg : 50 < (create_flat_segment df gs (df.length - 1)
                (qmean (plot_slice df gs (df.length - 1)))).distance
            · rw [if_pos hg, Except.ok.injEq] at h
              subst h
              refine ⟨List.chain'_singleton _, ?_, ?_⟩
              · intro x hx
                rw [List.mem_singleton] at hx
                exact Or.inr (hx ▸ hg)
              · intro x hx
                rw [List.mem_singleton] at hx
                subst hx
                exact le_trans (min_le_left _ _) (first_idx_ge_spec df lastEnd gs hfi)
            · rw [if_neg hg, Except.ok.injEq] at h
              subst h
              exact ⟨List.chain'_nil, by simp, by simp⟩
      · simp only [fill_gaps_aux, if_neg hcond, Except.ok.injEq] at h
        subst h
        exact ⟨List.chain'_nil, by simp, by simp⟩
  | cons seg rest ih =>
      intro lastEnd out h hsorted hlt
      have hseg_le : ∀ b ∈ rest, segLE seg b := (List.sorted_cons.mp hsorted).1
      have hsr : List.Sorted segLE rest := (List.sorted_cons.mp hsorted).2
      have hltr : ∀ s ∈ rest, s.start_distance < s.end_distance :=
        fun s hs => hlt s (List.mem_cons_of_mem seg hs)
      have hseg_lt : seg.start_distance < seg.end_distance :=
        hlt seg (List.mem_cons_self seg rest)
      by_cases hgap : lastEnd + 50 < seg.start_distance
      · simp only [fill_gaps_aux, if_pos hgap] at h
        cases hfi : first_idx_ge df lastEnd with
        | error e =>
            rw [hfi] at h
            simp at h
        | ok gs =>
            rw [hfi] at h
            cases hla : last_idx_le df seg.start_distance with
            | error e =>
                rw [hla] at h
                simp at h
            | ok ge =>
                rw [hla] at h
                cases hrec : fill_gaps_aux df seg.end_distance rest with
                | error e =>
                    rw [hrec] at h
                    simp at h
                | ok tail =>
                    rw [hrec] at h
                    dsimp only at h
                    obtain ⟨hc, hm, hlb⟩ := ih seg.end_distance tail hrec hsr hltr
                    obtain ⟨hc1, hm1, hlb1⟩ :=
                      fill_cons_core seg rest tail lastEnd hc hm hlb hseg_le hseg_lt
                    by_cases hg : 50 < (create_flat_segment df gs ge
                        (qmean (plot_slice df gs ge))).distance
                    · rw [if_pos hg] at h
                      simp only [List.cons_append, List.nil_append,
                        Except.ok.injEq] at h
                      subst h
                      have hge' : lastEnd ≤ (create_flat_segment df gs ge
                          (qmean (plot_slice df gs ge))).start_distance :=
                        first_idx_ge_spec df lastEnd gs hfi
                      have hle' : (create_flat_segment df gs ge
                          (qmean (plot_slice df gs ge))).end_distance ≤
                          seg.start_distance :=
                        last_idx_le_spec df seg.start_distance ge hla
                      have hd : (create_flat_segment df gs ge
                          (qmean (plot_slice df gs ge))).distance =
                          (create_flat_segment df gs ge
                            (qmean (plot_slice df gs ge))).end_distance -
                          (create_flat_segment df gs ge
                            (qmean (plot_slice df gs ge))).start_distance := rfl
                      refine ⟨?_, ?_, ?_⟩
                      · rw [List.chain'_cons']
                        refine ⟨?_, hc1⟩
                        intro y hy
                        rw [List.head?_cons, Option.mem_def, Option.some.injEq] at hy
                        subst hy
                        show (create_flat_segment df gs ge
                          (qmean (plot_slice df gs ge))).start_distance ≤
                          seg.start_distance
                        linarith
                      · intro x hx
                        rcases List.mem_cons.mp hx with hx | hx
                        · exact Or.inr (hx ▸ hg)
                        · exact hm1 x hx
                      · intro x hx
                        rcases List.mem_cons.mp hx with hx | hx
                        · exact hx ▸ le_trans (min_le_left _ _) hge'
                        · exact hlb1 x hx
                    · rw [if_neg hg] at h
                      simp only [List.nil_append, Except.ok.injEq] at h
                      subst h
                      exact ⟨hc1, hm1, hlb1⟩
      · simp only [fill_gaps_aux, if_neg hgap] at h
        cases hrec : fill_gaps_aux df seg.end_distance rest with
        | error e =>
            rw [hrec] at h
            simp at h
        | ok tail =>
            rw [hrec] at h
            simp only [List.nil_append, Except.ok.injEq] at h
            subst h
            obtain ⟨hc, hm, hlb⟩ := ih seg.end_distance tail hrec hsr hltr
            exact fill_cons_core seg rest tail lastEnd hc hm hlb hseg_le hseg_lt

/-- `_fill_gaps` at the top level: the output is chained by
`start_distance`; with candidates present every element is a candidate or
a filler over 50 m, and with no candidates the output is the single
whole-route filler. -/
theorem fill_gaps_props (df : List Row) (segs out : List Segment)
    (h : fill_gaps df segs = .ok out)
    (hs : List.Sorted segLE segs)
    (hlt : ∀ s ∈ segs, s.start_distance < s.end_distance) :
    List.Chain' segLE out ∧
      ((∀ x ∈ out, x ∈ segs ∨ 50 < x.distance) ∨ out.length = 1) := by
  by_cases he : segs.isEmpty
  · rw [fill_gaps, if_pos he, Except.ok.injEq] at h
    subst h
    exact ⟨List.chain'_singleton _, Or.inr rfl⟩
  · rw [fill_gaps, if_neg he] at h
    obtain ⟨hc, hm, _⟩ := fill_gaps_aux_props df segs 0 out h hs hlt
    exact ⟨hc, Or.inl hm⟩

/-- Every candidate in the merged, sorted list handed to `_fill_gaps`
meets the 300 m minimum length and has `start_distance < end_distance`. -/
theorem merged_good (df : List Row) (coords : Option (List PyCoord))
    (descents : List Segment)
    (hdd : detect_descents df coords = .ok descents) :
    ∀ s ∈ (detect_climbs df ++ descents).insertionSort segLE,
      (300:ℚ) ≤ s.distance ∧ s.start_distance < s.end_distance := by
  intro s hs
  have hs2 := (List.perm_insertionSort segLE _).mem_iff.mp hs
  rcases List.mem_append.mp hs2 with hc | hd
  · have hg := detect_climbs_mem df _ _ _ _ _ _ s hc
    have h1 := hg.1
    have h2 := hg.2
    exact ⟨h1, by linarith⟩
  · have hg := detect_descents_mem df coords _ _ _ _ _ _ _ hdd s hd
    have h1 := hg.1
    have h2 := hg.2
    exact ⟨h1, by linarith⟩

/-- C1 (amended): a successful `cut_segment` run returns a list sorted by
`start_distance`, and whenever it holds more than one segment every
element is longer than 50 m; full index coverage does not hold (gaps of
at most 50 m are dropped) and adjacent segments may share a boundary
index, as `c1_counterexample` shows. -/
theorem c1_amended (altitude_profile distance_profile : List ℚ)
    (coordinates : Option (List PyCoord)) (smooth_window : ℕ)
    (out : List Segment)
    (h : cut_segment altitude_profile distance_profile coordinates smooth_window =
      .ok out) :
    List.Sorted segLE out ∧ (1 < out.length → ∀ s ∈ out, (50:ℚ) < s.distance) := by
  simp only [cut_segment] at h
  by_cases hbad : distance_profile.length ≠ altitude_profile.length ∨
      (coords_columns altitude_profile.length coordinates).1.length ≠
        altitude_profile.length
  · rw [if_pos hbad] at h
    exact absurd h (by simp)
  · rw [if_neg hbad] at h
    by_cases hn : altitude_profile.length < 2
    · rw [if_pos hn, Except.ok.injEq] at h
      subst h
      exact ⟨List.sorted_nil, by simp⟩
    · rw [if_neg hn] at h
      split at h
      · exact absurd h (by simp)
      · rename_i descents hdd
        obtain ⟨hchain, hmo⟩ := fill_gaps_props _ _ _ h
          (List.sorted_insertionSort _ _)
          (fun s hs => (merged_good _ _ _ hdd s hs).2)
        refine ⟨List.chain'_iff_pairwise.mp hchain, ?_⟩
        intro hlen s hs
        rcases hmo with hm | hone
        · rcases hm s hs with hin | h50
          · have h300 := (merged_good _ _ _ hdd s hin).1
            linarith
          · exact h50
        · omega

/-- Witness for the amended C1 on the monotonic 11-point profile: the
single returned climb list is sorted and the length bound holds. -/
theorem c1_witness :
    List.Sorted segLE [c3rec] ∧
      (1 < ([c3rec] : List Segment).length → ∀ s ∈ [c3rec], (50:ℚ) < s.distance) :=
  c1_amended alt3 dist3 none 10 [c3rec] cut_segment_alt3

end SegmentSlicer
